import Mathlib

/-!
# Verification of the trac2gitea markdown conversion core

This file is a shallow embedding, over `List Char`, of the markdown
conversion engine of trac2gitea (package `markdown`): the recursive code
block parser of `codeBlock.go`, the three-phase link converter of
`link.go`, and the orchestration of `defaultConverter.go`.  Strings are
modelled as lists of characters; the specific Go regular expressions are
implemented as explicit matchers with the leftmost-first semantics of the
Go `regexp` package.  External collaborators (the trac and gitea
accessors, and the inline transforms that are out of the conversion
core's scope) are modelled as record fields, i.e. as fixed collaborator
responses.
-/

namespace Trac2Gitea

/-- Strings are modelled as lists of characters. -/
abbrev Str := List Char

/-! ## Character classes used by the Go regular expressions -/

def isDigitChar (c : Char) : Bool := '0' ≤ c && c ≤ '9'

def isUpperChar (c : Char) : Bool := 'A' ≤ c && c ≤ 'Z'

def isLowerChar (c : Char) : Bool := 'a' ≤ c && c ≤ 'z'

def isAlnumChar (c : Char) : Bool := isDigitChar c || isUpperChar c || isLowerChar c

def isXDigitChar (c : Char) : Bool :=
  isDigitChar c || ('a' ≤ c && c ≤ 'f') || ('A' ≤ c && c ≤ 'F')

/-- The RE2 Perl class backslash-s: tab, newline, form feed, carriage return, space. -/
def isRe2Space (c : Char) : Bool :=
  c = '\t' || c = '\n' || c = '\x0c' || c = '\r' || c = ' '

/-- The POSIX class [[:space:]]: tab, newline, vertical tab, form feed, carriage return, space. -/
def isPosixSpace (c : Char) : Bool :=
  c = '\t' || c = '\n' || c = '\x0b' || c = '\x0c' || c = '\r' || c = ' '

/-- Go `unicode.IsSpace`, as used by `strings.TrimSpace`. -/
def isUniSpace (c : Char) : Bool :=
  c = '\t' || c = '\n' || c = '\x0b' || c = '\x0c' || c = '\r' || c = ' ' ||
  c = '\x85' || c = '\xa0' || c = ' ' || (' ' ≤ c && c ≤ ' ') ||
  c = ' ' || c = ' ' || c = ' ' || c = ' ' || c = '　'

/-- The RE2 word class backslash-w: ASCII letters, digits and underscore. -/
def isWordChar (c : Char) : Bool := isAlnumChar c || c = '_'

/-! ## Small string helpers shared by the embedding -/

/-- `strings.TrimSpace`: drop unicode white space from both ends. -/
def trimLeftL (cs : Str) : Str := cs.dropWhile isUniSpace

def trimRightL (cs : Str) : Str := (cs.reverse.dropWhile isUniSpace).reverse

def goTrimSpace (cs : Str) : Str := trimRightL (trimLeftL cs)

/-- ASCII-case-insensitive equality of characters (for `strings.EqualFold`
on the ASCII strings compared in the source). -/
def foldChar (c : Char) : Char := if 'A' ≤ c && c ≤ 'Z' then Char.ofNat (c.toNat + 32) else c

/-- `strings.EqualFold` restricted to the ASCII arguments used by the source. -/
def asciiEqualFold (a b : Str) : Bool := a.map foldChar == b.map foldChar

/-- Go `strconv.ParseInt(s, 10, 64)`: optional sign, at least one ASCII
digit, and a signed 64-bit range check; `none` models a non-nil error. -/
def parseInt64 (s : Str) : Option Int :=
  match s with
  | [] => none
  | c :: cs =>
    let signedDigits : Bool × Str :=
      if c = '-' then (true, cs) else if c = '+' then (false, cs) else (false, c :: cs)
    let neg := signedDigits.1
    let ds := signedDigits.2
    if ds.isEmpty then none
    else if ds.all isDigitChar then
      let mag : Int := ds.foldl (fun a d => a * 10 + (Int.ofNat d.toNat - 48)) 0
      let v : Int := if neg then -mag else mag
      if -(2 ^ 63) ≤ v ∧ v ≤ 2 ^ 63 - 1 then some v else none
    else none

/-- `strings.ReplaceAll` for a fixed non-empty pattern `p :: ps`. -/
def replaceAllSeq (p : Char) (ps : Str) (rep : Str) : Str → Str
  | [] => []
  | c :: cs =>
    if (p :: ps).isPrefixOf (c :: cs) then rep ++ replaceAllSeq p ps rep (cs.drop ps.length)
    else c :: replaceAllSeq p ps rep cs
termination_by cs => cs.length
decreasing_by
  · simp only [List.length_cons]
    have := List.length_drop ps.length cs
    omega
  · simp

lemma length_dropWhile_le (p : Char → Bool) (l : Str) : (l.dropWhile p).length ≤ l.length := by
  induction l with
  | nil => simp [List.dropWhile]
  | cons c cs ih =>
    simp only [List.dropWhile]
    split <;> simp <;> omega

lemma length_takeWhile_le (p : Char → Bool) (l : Str) : (l.takeWhile p).length ≤ l.length := by
  induction l with
  | nil => simp [List.takeWhile]
  | cons c cs ih =>
    simp only [List.takeWhile]
    split <;> simp <;> omega

/-! ## codeBlock.go: the recursive code block parser

Code blocks are disguised with `\x7b@\x7b@\x7b...\x7d@\x7d@\x7d` to avoid
trac syntax conversion inside them. -/

/-- The disguised opening fence emitted for code blocks. -/
def fenceOpen : Str := "\x7b@\x7b@\x7b".data

/-- The disguised closing fence emitted for code blocks. -/
def fenceClose : Str := "\x7d@\x7d@\x7d".data

/-- A boundary token (`codeBlockBoundaryRegexp`) at the head of the text:
`true` for an opening triple bracket, `false` for a closing one. -/
def boundaryAt (cs : Str) : Option (Bool × Str) :=
  match cs with
  | a :: b :: c :: rest =>
    if a = '\x7b' && b = '\x7b' && c = '\x7b' then some (true, rest)
    else if a = '\x7d' && b = '\x7d' && c = '\x7d' then some (false, rest)
    else none
  | _ => none

/-- `codeBlockBoundaryRegexp.Split(in, 2)` combined with `FindString`:
the text before the leftmost boundary token, the kind of that token, and
the text after it.  `none` when the text holds no boundary token
(`!codeBlockBoundaryRegexp.MatchString(in)`). -/
def splitAtBoundary : Str → Option (Str × Bool × Str)
  | [] => none
  | c :: rest =>
    match boundaryAt (c :: rest) with
    | some (k, a) => some ([], k, a)
    | none =>
      match splitAtBoundary rest with
      | none => none
      | some (b, k, a) => some (c :: b, k, a)

lemma boundaryAt_length {cs a : Str} {k : Bool} (h : boundaryAt cs = some (k, a)) :
    cs.length = 3 + a.length := by
  unfold boundaryAt at h
  split at h
  · split_ifs at h <;>
    · simp only [Option.some.injEq, Prod.mk.injEq] at h
      obtain ⟨-, ha⟩ := h
      subst ha
      simp
      omega
  · exact absurd h (by simp)

lemma splitAtBoundary_length {cs b : Str} {k : Bool} {a : Str}
    (h : splitAtBoundary cs = some (b, k, a)) : cs.length = b.length + 3 + a.length := by
  induction cs generalizing b with
  | nil => simp [splitAtBoundary] at h
  | cons c rest ih =>
    rw [splitAtBoundary] at h
    rcases hb : boundaryAt (c :: rest) with _ | ⟨k0, a0⟩
    · rw [hb] at h
      rcases hs : splitAtBoundary rest with _ | ⟨b0, k0, a0⟩
      · rw [hs] at h; exact absurd h (by simp)
      · rw [hs] at h
        simp only [Option.some.injEq, Prod.mk.injEq] at h
        obtain ⟨hb1, hk, ha⟩ := h
        subst hb1 hk ha
        have := ih hs
        simp [this]
        omega
    · rw [hb] at h
      simp only [Option.some.injEq, Prod.mk.injEq] at h
      obtain ⟨hb1, hk, ha⟩ := h
      subst hb1 hk ha
      have := boundaryAt_length hb
      simp at this ⊢
      omega

/-- `tracProcessorRegexp = ^ backslash-s* #!(backslash-w [^ newline]*)?`
matched against the start of the text: returns the processor token
(submatch 1, empty when the optional group does not take part) and the
text remaining after the whole match (`Split(afterBoundary, 2)[1]`).
`none` when the regexp does not match. -/
def tracProcessorSplit (cs : Str) : Option (Str × Str) :=
  match cs.dropWhile isRe2Space with
  | '#' :: '!' :: r =>
    match r with
    | [] => some ([], [])
    | c :: r2 =>
      if isWordChar c then
        some (c :: r2.takeWhile (fun x => x ≠ '\n'), r2.dropWhile (fun x => x ≠ '\n'))
      else some ([], c :: r2)
  | _ => none

/-- The Go code keeps `afterBoundary` unchanged when the processor regexp
does not match, and advances past the match otherwise. -/
def processorCut (a : Str) : Str × Str :=
  match tracProcessorSplit a with
  | some (tok, rest) => (tok, rest)
  | none => ([], a)

lemma tracProcessorSplit_length {cs tok rest : Str} (h : tracProcessorSplit cs = some (tok, rest)) :
    rest.length ≤ cs.length := by
  unfold tracProcessorSplit at h
  have hlen : (cs.dropWhile isRe2Space).length ≤ cs.length := length_dropWhile_le isRe2Space cs
  split at h
  · rename_i r heq
    rw [heq] at hlen
    simp only [List.length_cons] at hlen
    split at h
    · simp only [Option.some.injEq, Prod.mk.injEq] at h
      obtain ⟨-, hrest⟩ := h
      subst hrest
      simp
    · rename_i c r2
      split at h <;> simp only [Option.some.injEq, Prod.mk.injEq] at h <;> obtain ⟨-, hrest⟩ := h
      · subst hrest
        have := length_dropWhile_le (fun x => x ≠ '\n') r2
        simp only [List.length_cons] at hlen
        omega
      · subst hrest
        simp only [List.length_cons] at hlen ⊢
        omega
  · exact absurd h (by simp)

lemma processorCut_length (a : Str) : (processorCut a).2.length ≤ a.length := by
  unfold processorCut
  rcases h : tracProcessorSplit a with _ | ⟨tok, rest⟩
  · simp
  · simpa using tracProcessorSplit_length h

/-- The block-style HTML tags for which an empty line is added between the
tags and the content. -/
def htmlTags : List Str := ["div".data, "td".data, "th".data, "tr".data, "table".data]

/-- The recognized code languages. -/
def codeLangs : List Str :=
  ["c".data, "c++".data, "ps1".data, "php".data, "py".data, "sh".data, "cpp".data, "pl".data]

/-- The language alias map (gitea name for a recognized trac language). -/
def langMap : List (Str × Str) := [("c++".data, "cpp".data)]

/-- The alias-map lookup of the opening-boundary conversion: the gitea
name when the map holds the language, the language itself otherwise. -/
def mapCodeLang (lang : Str) : Str :=
  match langMap.lookup lang with
  | some fixedLang => fixedLang
  | none => lang

/-- The conversion of an opening boundary for a given (already
CommitTicketReference-filtered) processor token: the converted boundary
text and the block type pushed on the open-block stack.  This mirrors the
straight-line opening logic of `parseCodeBlocks` (codeBlock.go lines
54-109): default disguised fence keeping `#!token`, then the recognized
language check, then the HTML tag check, then the comment check, then
the raw html check — each later check overriding the earlier ones. -/
def openBoundaryConversion (tracProcessor : Str) : Str × Str :=
  let convertedBoundary := fenceOpen
  let blockType : Str := []
  let convertedBoundary :=
    if tracProcessor ≠ [] then convertedBoundary ++ '#' :: '!' :: tracProcessor
    else convertedBoundary
  let convertedBoundary :=
    codeLangs.foldl
      (fun acc codeLang =>
        if goTrimSpace tracProcessor = codeLang then fenceOpen ++ mapCodeLang codeLang
        else acc)
      convertedBoundary
  let tagged : Str × Str :=
    match htmlTags.find? (fun tag => tag.isPrefixOf tracProcessor) with
    | some tag => ('<' :: tracProcessor ++ '>' :: '\n' :: [], tag)
    | none => (convertedBoundary, blockType)
  let commented : Str × Str :=
    if "comment".data.isPrefixOf tracProcessor || "htmlcomment".data.isPrefixOf tracProcessor then
      ("<!---".data, "comment".data)
    else tagged
  if "html".data.isPrefixOf tracProcessor then ([], "html".data) else commented

/-- The conversion of a closing boundary for the block type popped from
the open-block stack (codeBlock.go lines 120-138). -/
def closeBoundaryConversion (blockType : Str) : Str :=
  let convertedBoundary := fenceClose
  let convertedBoundary :=
    htmlTags.foldl
      (fun acc tag => if blockType = tag then '\n' :: '<' :: '/' :: tag ++ '>' :: [] else acc)
      convertedBoundary
  let convertedBoundary := if blockType = "comment".data then "-->".data else convertedBoundary
  if blockType = "html".data then [] else convertedBoundary

/-- `parseCodeBlocks(in, accumulated)`: the recursive code block parser.
The head of `accumulated` is the top of the open-block stack (the Go
slice keeps its top at the end).  The boolean records whether the
"opening triple brackets are not closed" error was logged. -/
def parseCodeBlocksL (cs : Str) (accumulated : List Str) : Str × Bool :=
  match h : splitAtBoundary cs with
  | none => (cs, !accumulated.isEmpty)
  | some (beforeBoundary, isOpening, afterBoundary) =>
    if isOpening then
      let tp0 := (processorCut afterBoundary).1
      let tracProcessor := if "CommitTicketReference".data.isPrefixOf tp0 then [] else tp0
      let ob := openBoundaryConversion tracProcessor
      let r := parseCodeBlocksL (processorCut afterBoundary).2 (ob.2 :: accumulated)
      (beforeBoundary ++ ob.1 ++ r.1, r.2)
    else
      match accumulated with
      | [] =>
        let r := parseCodeBlocksL afterBoundary []
        (beforeBoundary ++ '\x7d' :: '\x7d' :: '\x7d' :: r.1, r.2)
      | blockType :: restAcc =>
        let r := parseCodeBlocksL afterBoundary restAcc
        (beforeBoundary ++ closeBoundaryConversion blockType ++ r.1, r.2)
termination_by cs.length
decreasing_by
  · have h1 := processorCut_length afterBoundary
    have h2 := splitAtBoundary_length h
    omega
  · have h2 := splitAtBoundary_length h
    omega
  · have h2 := splitAtBoundary_length h
    omega

/-- `convertCodeBlocks`: run the parser with an initially empty stack. -/
def convertCodeBlocksL (cs : Str) : Str × Bool := parseCodeBlocksL cs []

/-! ## codeBlock.go: undisguising and the non-code-block router -/

/-- Lazy content scan for `singleLineCodeBlockRegexp`: `racc` holds the
(reversed, non-empty) content read so far; stop at the closing fence,
fail at a newline or at end of text. -/
def singleLineCloserScan (racc rest : Str) : Option (Str × Str) :=
  if fenceClose.isPrefixOf rest then some (racc.reverse, rest.drop 5)
  else
    match rest with
    | [] => none
    | c :: cs => if c = '\n' then none else singleLineCloserScan (c :: racc) cs
termination_by rest.length
decreasing_by simp

/-- Leftmost match of `singleLineCodeBlockRegexp` (a disguised fence pair
on one line, lazy non-empty content): (text before, submatch 1, text
after). -/
def singleLineFind : Str → Option (Str × Str × Str)
  | [] => none
  | c :: cs =>
    let deeper : Option (Str × Str × Str) :=
      match singleLineFind cs with
      | none => none
      | some (b, co, a) => some (c :: b, co, a)
    if fenceOpen.isPrefixOf (c :: cs) then
      match (c :: cs).drop 5 with
      | [] => deeper
      | d :: ds =>
        if d = '\n' then deeper
        else
          match singleLineCloserScan [d] ds with
          | some (content, after) => some ([], content, after)
          | none => deeper
    else deeper

/-- The single-line replacement pass of `undisguiseCodeBlocks`
(replacement template a backtick, submatch 1, a backtick). -/
def undisguiseSingleLine (cs : Str) : Str :=
  match singleLineFind cs with
  | none => cs
  | some (b, co, a) =>
    if h : a.length < cs.length then b ++ '`' :: (co ++ '`' :: undisguiseSingleLine a)
    else b ++ '`' :: (co ++ '`' :: a)
termination_by cs.length

/-- `undisguiseCodeBlocks`: single-line fence pairs become inline code,
remaining disguised fences become triple-backtick delimiters. -/
def undisguiseCodeBlocksL (cs : Str) : Str :=
  let out := undisguiseSingleLine cs
  let out := replaceAllSeq '\x7b' ('@' :: '\x7b' :: '@' :: '\x7b' :: []) ('`' :: '`' :: '`' :: []) out
  replaceAllSeq '\x7d' ('@' :: '\x7d' :: '@' :: '\x7d' :: []) ('`' :: '`' :: '`' :: []) out

/-- Lazy content scan for `nonCodeBlockRegexp`: consume at least one
character ((?s) dot mode), stopping at the first line-start disguised
opening fence (which the match consumes) or at end of text. -/
def nonCodeContentScan (prev : Char) (racc rest : Str) : Str × Str :=
  if prev = '\n' && fenceOpen.isPrefixOf rest then (racc.reverse ++ fenceOpen, rest.drop 5)
  else
    match rest with
    | [] => (racc.reverse, [])
    | c :: cs => nonCodeContentScan c (c :: racc) cs
termination_by rest.length
decreasing_by simp

/-- A match of `nonCodeBlockRegexp` starting at this position: either a
disguised closing fence at end of line followed by lazy content, or (at
the very start of the text) the content alone.  Returns (whole match,
text after). -/
def nonCodeOpenerTry (atStart : Bool) (rest : Str) : Option (Str × Str) :=
  let viaFence : Option (Str × Str) :=
    if fenceClose.isPrefixOf rest then
      match rest.drop 5 with
      | [] => none
      | d :: ds =>
        if d = '\n' then
          let r := nonCodeContentScan d [d] ds
          some (fenceClose ++ r.1, r.2)
        else none
    else none
  match viaFence with
  | some r => some r
  | none =>
    if atStart then
      match rest with
      | [] => none
      | d :: ds =>
        let r := nonCodeContentScan d [d] ds
        some (r.1, r.2)
    else none

/-- Leftmost match of `nonCodeBlockRegexp`: (text before, whole match,
text after).  `atStart` records whether the scan position is the start of
the text (where the anchor alternative may apply). -/
def nonCodeFind (atStart : Bool) : Str → Option (Str × Str × Str)
  | [] => none
  | c :: cs =>
    match nonCodeOpenerTry atStart (c :: cs) with
    | some (m, a) => some ([], m, a)
    | none =>
      match nonCodeFind false cs with
      | none => none
      | some (b, m, a) => some (c :: b, m, a)

/-- `nonCodeBlockRegexp.ReplaceAllStringFunc`: apply `convertFn` to every
match (a non-code segment together with its delimiting sentinels). -/
def convertNonCodeAux (atStart : Bool) (cs : Str) (convertFn : Str → Str) : Str :=
  match nonCodeFind atStart cs with
  | none => cs
  | some (b, m, a) =>
    if h : a.length < cs.length then b ++ convertFn m ++ convertNonCodeAux false a convertFn
    else b ++ convertFn m ++ a
termination_by cs.length

/-- `convertNonCodeBlocks`. -/
def convertNonCodeBlocksL (cs : Str) (convertFn : Str → Str) : Str :=
  convertNonCodeAux true cs convertFn

/-! ## removeTOC (tocRegexp) -/

/-- A match of `tocRegexp` (literal double-bracket TOC tag followed by
one or more newlines, greedy) at this position: the text after it. -/
def tocMatchAt (rest : Str) : Option Str :=
  if "[[TOC]]".data.isPrefixOf rest then
    match rest.drop 7 with
    | '\n' :: more => some (more.dropWhile (fun x => x = '\n'))
    | _ => none
  else none

/-- Leftmost match of `tocRegexp`: (text before, text after). -/
def tocFind : Str → Option (Str × Str)
  | [] => none
  | c :: cs =>
    match tocMatchAt (c :: cs) with
    | some a => some ([], a)
    | none =>
      match tocFind cs with
      | none => none
      | some (b, a) => some (c :: b, a)

/-- `removeTOC`: delete every TOC special tag. -/
def removeTOCL (cs : Str) : Str :=
  match tocFind cs with
  | none => cs
  | some (b, a) => if h : a.length < cs.length then b ++ removeTOCL a else b ++ a
termination_by cs.length

/-! ## disguiseLinks / undisguiseLinks (link.go) -/

/-- `httpLinkDisguiseRegexp.ReplaceAllString(out, dollar-1:@@)`: rewrite
every http(s) scheme-and-separator to its disguised form. -/
def disguiseLinksL : Str → Str
  | [] => []
  | c :: cs =>
    if "https://".data.isPrefixOf (c :: cs) then "https:@@".data ++ disguiseLinksL (cs.drop 7)
    else if "http://".data.isPrefixOf (c :: cs) then "http:@@".data ++ disguiseLinksL (cs.drop 6)
    else c :: disguiseLinksL cs
termination_by cs => cs.length
decreasing_by
  · simp only [List.length_cons]
    have := List.length_drop 7 cs
    omega
  · simp only [List.length_cons]
    have := List.length_drop 6 cs
    omega
  · simp

/-- `httpLinkUndisguiseRegexp.ReplaceAllString(out, dollar-1://)`:
rewrite every disguised scheme back. -/
def undisguiseLinksL : Str → Str
  | [] => []
  | c :: cs =>
    if "https:@@".data.isPrefixOf (c :: cs) then "https://".data ++ undisguiseLinksL (cs.drop 7)
    else if "http:@@".data.isPrefixOf (c :: cs) then "http://".data ++ undisguiseLinksL (cs.drop 6)
    else c :: undisguiseLinksL cs
termination_by cs => cs.length
decreasing_by
  · simp only [List.length_cons]
    have := List.length_drop 7 cs
    omega
  · simp only [List.length_cons]
    have := List.length_drop 6 cs
    omega
  · simp

/-! ## link.go: regular-expression matchers

Each Go regexp of link.go is implemented as a `matchAt` function giving
the match starting at the current position (with its submatches), lifted
to a leftmost-match scan and to `ReplaceAllString`/`ReplaceAllStringFunc`
by the generic functions below. -/

/-- A match at the current position: the whole match, up to three
submatches (empty when the group takes no part), and the text after. -/
structure ReAt where
  matched : Str
  g1 : Str := []
  g2 : Str := []
  g3 : Str := []
  after : Str

/-- A leftmost match: `ReAt` together with the text before the match. -/
structure ReMatch where
  before : Str
  matched : Str
  g1 : Str := []
  g2 : Str := []
  g3 : Str := []
  after : Str

/-- Leftmost match of a (never-empty-match) regexp given by `matchAt`. -/
def reFind (matchAt : Str → Option ReAt) : Str → Option ReMatch
  | [] => none
  | c :: cs =>
    match matchAt (c :: cs) with
    | some r => some ⟨[], r.matched, r.g1, r.g2, r.g3, r.after⟩
    | none =>
      match reFind matchAt cs with
      | none => none
      | some m => some { m with before := c :: m.before }

/-- `ReplaceAllStringFunc` for the regexp given by `matchAt`. -/
def reReplaceAll (matchAt : Str → Option ReAt) (fn : ReMatch → Str) (cs : Str) : Str :=
  match reFind matchAt cs with
  | none => cs
  | some m =>
    if h : m.after.length < cs.length then m.before ++ fn m ++ reReplaceAll matchAt fn m.after
    else m.before ++ fn m ++ m.after
termination_by cs.length

/-- `ReplaceAllString(s, dollar-1)`. -/
def reReplaceAllG1 (matchAt : Str → Option ReAt) (cs : Str) : Str :=
  reReplaceAll matchAt (fun m => m.g1) cs

/-- `ReplaceAllString(s, dollar-2)`. -/
def reReplaceAllG2 (matchAt : Str → Option ReAt) (cs : Str) : Str :=
  reReplaceAll matchAt (fun m => m.g2) cs

/-- `ReplaceAllString(s, dollar-3)`. -/
def reReplaceAllG3 (matchAt : Str → Option ReAt) (cs : Str) : Str :=
  reReplaceAll matchAt (fun m => m.g3) cs

/-- The zero-width space separating debracketted links from trailing text. -/
def zws : Char := '\u200b'

def isAlphaChar (c : Char) : Bool := isUpperChar c || isLowerChar c

/-- The character class of `httpLinkRegexp`, `htdocsLinkRegexp` and
`milestoneLinkRegexp` (alnum plus URL punctuation). -/
def isHTTPLinkChar (c : Char) : Bool :=
  isAlnumChar c || c = '-' || c = '.' || c = '_' || c = '~' || c = ':' || c = '/' ||
  c = '?' || c = '#' || c = '@' || c = '!' || c = '$' || c = '&' || c = Char.ofNat 39 ||
  c = '"' || c = '(' || c = ')' || c = '*' || c = '+' || c = ',' || c = ';' || c = '%' || c = '='

/-- The character class of the attachment file name (the http class
without the colon). -/
def isAttachmentChar (c : Char) : Bool := isHTTPLinkChar c && c ≠ ':'

/-- The character class of the Image link target (the http class without
the closing parenthesis and the comma). -/
def isImageLinkChar (c : Char) : Bool := isHTTPLinkChar c && c ≠ ')' && c ≠ ','

/-- The character class of the wiki page name in `wikiLinkRegexp`. -/
def isWikiNameChar (c : Char) : Bool :=
  isAlnumChar c || c = ':' || c = '-' || c = '.' || c = '_' || c = '&' || c = Char.ofNat 39

/-- The character class of the anchor in `wikiLinkRegexp`. -/
def isWikiAnchorChar (c : Char) : Bool :=
  isAlnumChar c || c = '?' || c = '/' || c = ':' || c = '@' || c = '-' || c = '.' || c = '_' ||
  c = '~' || c = '!' || c = '$' || c = '&' || c = Char.ofNat 39 || c = '*' || c = '+' ||
  c = ',' || c = ';' || c = '='

/-- The character class of the anchor in `wikiCamelCaseLinkRegexp` (the
wiki anchor class plus parentheses). -/
def isCamelAnchorChar (c : Char) : Bool := isWikiAnchorChar c || c = '(' || c = ')'

/-- The leading-character class of `wikiCamelCaseLinkRegexp`. -/
def isCamelLeadChar (c : Char) : Bool := isPosixSpace c || c = zws || c = ']'

/-- The character class of `localFileLinkRegexp` before the extension dot. -/
def isLocalFileChar (c : Char) : Bool := isAlnumChar c || c = '-' || c = '.' || c = '_' || c = ','

/-- `httpLinkRegexp`: an http(s) scheme, a greedy run of URL characters,
ending at the last alphanumeric character of that run. -/
def httpMatchAt (cs : Str) : Option ReAt :=
  let run (scheme rest : Str) : Option ReAt :=
    let r := rest.takeWhile isHTTPLinkChar
    let body := (r.reverse.dropWhile (fun c => !isAlnumChar c)).reverse
    if body.isEmpty then none
    else some { matched := scheme ++ body, after := rest.drop body.length }
  if "https://".data.isPrefixOf cs then run "https://".data (cs.drop 8)
  else if "http://".data.isPrefixOf cs then run "http://".data (cs.drop 7)
  else none

/-- `htdocsLinkRegexp`. -/
def htdocsMatchAt (cs : Str) : Option ReAt :=
  if "htdocs:".data.isPrefixOf cs then
    let rest := cs.drop 7
    let r := rest.takeWhile isHTTPLinkChar
    if r.isEmpty then none
    else some { matched := "htdocs:".data ++ r, g1 := r, after := rest.drop r.length }
  else none

/-- `ticketCommentLinkRegexp`: comment number with an optional explicit
ticket suffix. -/
def ticketCommentMatchAt (cs : Str) : Option ReAt :=
  if "comment:".data.isPrefixOf cs then
    let rest := cs.drop 8
    let d1 := rest.takeWhile isDigitChar
    if d1.isEmpty then none
    else
      let rest1 := rest.drop d1.length
      let viaTicket : Option ReAt :=
        if ":ticket:".data.isPrefixOf rest1 then
          let rest2 := rest1.drop 8
          let d2 := rest2.takeWhile isDigitChar
          if d2.isEmpty then none
          else some { matched := "comment:".data ++ d1 ++ ":ticket:".data ++ d2,
                      g1 := d1, g2 := d2, after := rest2.drop d2.length }
        else none
      match viaTicket with
      | some r => some r
      | none => some { matched := "comment:".data ++ d1, g1 := d1, after := rest1 }
  else none

/-- `milestoneLinkRegexp`. -/
def milestoneMatchAt (cs : Str) : Option ReAt :=
  if "milestone:".data.isPrefixOf cs then
    let rest := cs.drop 10
    let r := rest.takeWhile isHTTPLinkChar
    if r.isEmpty then none
    else some { matched := "milestone:".data ++ r, g1 := r, after := rest.drop r.length }
  else none

/-- A maximal non-empty sequence of upper-case letters each followed by a
run of lower-case letters (the `:wiki:` page group of
`attachmentLinkRegexp`): (consumed, rest). -/
def upperLowerStarSeq : Str → Str × Str
  | [] => ([], [])
  | c :: cs =>
    if isUpperChar c then
      let lows := cs.takeWhile isLowerChar
      let r := upperLowerStarSeq (cs.drop lows.length)
      (c :: (lows ++ r.1), r.2)
    else ([], c :: cs)
termination_by cs => cs.length
decreasing_by
  simp only [List.length_cons]
  have := List.length_drop (cs.takeWhile isLowerChar).length cs
  omega

/-- `attachmentLinkRegexp`: file name with an optional explicit `:wiki:`
or `:ticket:` suffix (the wiki alternative tried first). -/
def attachmentMatchAt (cs : Str) : Option ReAt :=
  if "attachment:".data.isPrefixOf cs then
    let rest := cs.drop 11
    let f := rest.takeWhile isAttachmentChar
    if f.isEmpty then none
    else
      let rest1 := rest.drop f.length
      let viaWiki : Option ReAt :=
        if ":wiki:".data.isPrefixOf rest1 then
          let rest2 := rest1.drop 6
          let pg := upperLowerStarSeq rest2
          if pg.1.isEmpty then none
          else some { matched := "attachment:".data ++ f ++ ":wiki:".data ++ pg.1,
                      g1 := f, g2 := pg.1, after := pg.2 }
        else none
      let viaTicket : Option ReAt :=
        if ":ticket:".data.isPrefixOf rest1 then
          let rest2 := rest1.drop 8
          let d := rest2.takeWhile isDigitChar
          if d.isEmpty then none
          else some { matched := "attachment:".data ++ f ++ ":ticket:".data ++ d,
                      g1 := f, g3 := d, after := rest2.drop d.length }
        else none
      match viaWiki with
      | some r => some r
      | none =>
        match viaTicket with
        | some r => some r
        | none => some { matched := "attachment:".data ++ f, g1 := f, after := rest1 }
  else none

/-- `changesetLinkRegexp`: quoted hexadecimal changeset id and repository. -/
def changesetMatchAt (cs : Str) : Option ReAt :=
  if "changeset:\"".data.isPrefixOf cs then
    let rest := cs.drop 11
    let hx := rest.takeWhile isXDigitChar
    if hx.isEmpty then none
    else
      match rest.drop hx.length with
      | '/' :: rest2 =>
        let body := rest2.takeWhile (fun c => c ≠ '"')
        if body.isEmpty then none
        else
          match rest2.drop body.length with
          | '"' :: rest3 =>
            some { matched := "changeset:\"".data ++ hx ++ '/' :: (body ++ ['"']),
                   g1 := hx, after := rest3 }
          | _ => none
      | _ => none
  else none

/-- `sourceLinkRegexp`: quoted repository and source path. -/
def sourceMatchAt (cs : Str) : Option ReAt :=
  if "source:\"".data.isPrefixOf cs then
    let rest := cs.drop 8
    let repo := rest.takeWhile (fun c => c ≠ '/')
    if repo.isEmpty then none
    else
      match rest.drop repo.length with
      | '/' :: rest2 =>
        let body := rest2.takeWhile (fun c => c ≠ '"')
        if body.isEmpty then none
        else
          match rest2.drop body.length with
          | '"' :: rest3 =>
            some { matched := "source:\"".data ++ repo ++ '/' :: (body ++ ['"']),
                   g1 := body, after := rest3 }
          | _ => none
      | _ => none
  else none

/-- `ticketLinkRegexp`. -/
def ticketMatchAt (cs : Str) : Option ReAt :=
  if "ticket:".data.isPrefixOf cs then
    let rest := cs.drop 7
    let d := rest.takeWhile isDigitChar
    if d.isEmpty then none
    else some { matched := "ticket:".data ++ d, g1 := d, after := rest.drop d.length }
  else none

/-- `wikiLinkRegexp`: page name (a run of wiki name characters ending at
its last alphanumeric character) and an optional anchor. -/
def wikiMatchAt (cs : Str) : Option ReAt :=
  if "wiki:".data.isPrefixOf cs then
    let rest := cs.drop 5
    let r := rest.takeWhile isWikiNameChar
    let body := (r.reverse.dropWhile (fun c => !isAlnumChar c)).reverse
    if body.isEmpty then none
    else
      let rest1 := rest.drop body.length
      let withAnchor : Option ReAt :=
        match rest1 with
        | '#' :: rest2 =>
          let an := rest2.takeWhile isWikiAnchorChar
          if an.isEmpty then none
          else some { matched := "wiki:".data ++ body ++ '#' :: an,
                      g1 := body, g2 := an, after := rest2.drop an.length }
        | _ => none
      match withAnchor with
      | some r => some r
      | none => some { matched := "wiki:".data ++ body, g1 := body, after := rest1 }
  else none

/-- A maximal sequence of camel-case syllables (an upper-case letter
followed by one or more lower-case letters): (count, consumed, rest). -/
def camelWordSeq : Str → Nat × Str × Str
  | [] => (0, [], [])
  | c :: cs =>
    if isUpperChar c then
      let lows := cs.takeWhile isLowerChar
      if lows.isEmpty then (0, [], c :: cs)
      else
        let r := camelWordSeq (cs.drop lows.length)
        (r.1 + 1, c :: (lows ++ r.2.1), r.2.2)
    else (0, [], c :: cs)
termination_by cs => cs.length
decreasing_by
  simp only [List.length_cons]
  have := List.length_drop (cs.takeWhile isLowerChar).length cs
  omega

/-- `wikiCamelCaseLinkRegexp` at the current position: a leading
delimiter character (or the start of the text), at least two camel-case
syllables, and an optional anchor. -/
def camelMatchAt (atStart : Bool) (cs : Str) : Option ReAt :=
  let tryFrom (lead rest : Str) : Option ReAt :=
    let w := camelWordSeq rest
    if w.1 < 2 then none
    else
      let body := w.2.1
      let rest1 := w.2.2
      let withAnchor : Option ReAt :=
        match rest1 with
        | '#' :: rest2 =>
          let an := rest2.takeWhile isCamelAnchorChar
          if an.isEmpty then none
          else some { matched := lead ++ body ++ '#' :: an,
                      g1 := lead, g2 := body, g3 := an, after := rest2.drop an.length }
        | _ => none
      match withAnchor with
      | some r => some r
      | none => some { matched := lead ++ body, g1 := lead, g2 := body, after := rest1 }
  match cs with
  | [] => none
  | c :: rest =>
    if isCamelLeadChar c then tryFrom [c] rest
    else if atStart then tryFrom [] (c :: rest)
    else none

/-- Leftmost match of `wikiCamelCaseLinkRegexp`; `atStart` records
whether the scan position is the start of the text. -/
def camelFind (atStart : Bool) : Str → Option ReMatch
  | [] => none
  | c :: cs =>
    match camelMatchAt atStart (c :: cs) with
    | some r => some ⟨[], r.matched, r.g1, r.g2, r.g3, r.after⟩
    | none =>
      match camelFind false cs with
      | none => none
      | some m => some { m with before := c :: m.before }

/-- `ReplaceAllStringFunc` for `wikiCamelCaseLinkRegexp`. -/
def camelReplaceAllAux (atStart : Bool) (fn : ReMatch → Str) (cs : Str) : Str :=
  match camelFind atStart cs with
  | none => cs
  | some m =>
    if h : m.after.length < cs.length then m.before ++ fn m ++ camelReplaceAllAux false fn m.after
    else m.before ++ fn m ++ m.after
termination_by cs.length

def camelReplaceAll (fn : ReMatch → Str) (cs : Str) : Str := camelReplaceAllAux true fn cs

def camelReplaceAllG1 (cs : Str) : Str := camelReplaceAll (fun m => m.g1) cs

def camelReplaceAllG2 (cs : Str) : Str := camelReplaceAll (fun m => m.g2) cs

def camelReplaceAllG3 (cs : Str) : Str := camelReplaceAll (fun m => m.g3) cs

/-- `doubleBracketImageLinkRegexp`. -/
def imageMatchAt (cs : Str) : Option ReAt :=
  if "[[Image(".data.isPrefixOf cs then
    let rest := cs.drop 8
    let g1 := rest.takeWhile (fun c => c ≠ ',' && c ≠ ')')
    if g1.isEmpty then none
    else
      let rest1 := rest.drop g1.length
      let opt : Option (Str × Str × Str) :=
        match rest1 with
        | ',' :: r1 =>
          let sp := r1.takeWhile (fun c => c = ' ')
          let r2 := r1.drop sp.length
          if "link=".data.isPrefixOf r2 then
            let r3 := r2.drop 5
            let lk := r3.takeWhile isImageLinkChar
            if lk.isEmpty then none
            else some (',' :: (sp ++ "link=".data ++ lk), lk, r3.drop lk.length)
          else none
        | _ => none
      let optC := match opt with
        | some (a, b, r) => (a, b, r)
        | none => (([] : Str), ([] : Str), rest1)
      let tail := optC.2.2.takeWhile (fun c => c ≠ ']')
      match optC.2.2.drop tail.length with
      | ']' :: ']' :: rest3 =>
        some { matched := "[[Image(".data ++ g1 ++ optC.1 ++ tail ++ ']' :: ']' :: [],
               g1 := g1, g2 := optC.2.1, after := rest3 }
      | _ => none
  else none

/-- `doubleBracketLinkRegexp`. -/
def doubleBracketMatchAt (cs : Str) : Option ReAt :=
  match cs with
  | '[' :: '[' :: c :: rest =>
    if isAlphaChar c then
      let g1tail := rest.takeWhile (fun x => x ≠ '|' && x ≠ ']')
      let g1 := c :: g1tail
      let rest1 := rest.drop g1tail.length
      let withText : Option ReAt :=
        match rest1 with
        | '|' :: r1 =>
          let g2 := r1.takeWhile (fun x => x ≠ ']')
          if g2.isEmpty then none
          else
            match r1.drop g2.length with
            | ']' :: ']' :: r2 =>
              some { matched := '[' :: '[' :: (g1 ++ '|' :: (g2 ++ ']' :: ']' :: [])),
                     g1 := g1, g2 := g2, after := r2 }
            | _ => none
        | _ => none
      match withText with
      | some r => some r
      | none =>
        match rest1 with
        | ']' :: ']' :: r2 =>
          some { matched := '[' :: '[' :: (g1 ++ ']' :: ']' :: []), g1 := g1, after := r2 }
        | _ => none
    else none
  | _ => none

/-- `singleBracketLinkRegexp`.  When the run after the spaces is empty
and at least two spaces were read, the greedy space-plus gives one space
back to the text group (which may not be empty), matching the Go
backtracking behaviour. -/
def singleBracketMatchAt (cs : Str) : Option ReAt :=
  match cs with
  | '[' :: c :: rest =>
    if isAlphaChar c then
      let g1tail := rest.takeWhile (fun x => x ≠ ' ' && x ≠ ']')
      let g1 := c :: g1tail
      let rest1 := rest.drop g1tail.length
      let withText : Option ReAt :=
        match rest1 with
        | ' ' :: r1 =>
          let sp := r1.takeWhile (fun x => x = ' ')
          let r2 := r1.drop sp.length
          let g2 := r2.takeWhile (fun x => x ≠ ']')
          if g2.isEmpty then
            if sp.isEmpty then none
            else
              match r2 with
              | ']' :: r3 =>
                some { matched := '[' :: (g1 ++ ' ' :: (sp ++ ']' :: [])),
                       g1 := g1, g2 := [' '], after := r3 }
              | _ => none
          else
            match r2.drop g2.length with
            | ']' :: r3 =>
              some { matched := '[' :: (g1 ++ ' ' :: (sp ++ g2 ++ ']' :: [])),
                     g1 := g1, g2 := g2, after := r3 }
            | _ => none
        | _ => none
      match withText with
      | some r => some r
      | none =>
        match rest1 with
        | ']' :: r2 => some { matched := '[' :: (g1 ++ ']' :: []), g1 := g1, after := r2 }
        | _ => none
    else none
  | _ => none

/-- `noTextMarkedLinkRegexp`: a marked link preceded by a character other
than a closing square bracket. -/
def noTextMarkedMatchAt (cs : Str) : Option ReAt :=
  match cs with
  | c :: rest =>
    if c ≠ ']' && "(@@".data.isPrefixOf rest then
      let r1 := rest.drop 3
      let u := r1.takeWhile (fun x => x ≠ '@')
      if u.isEmpty then none
      else
        match r1.drop u.length with
        | '@' :: '@' :: ')' :: r2 =>
          some { matched := c :: ("(@@".data ++ u ++ "@@)".data), g1 := [c], g2 := u, after := r2 }
        | _ => none
    else none
  | [] => none

/-- `markedLinkRegexp`. -/
def markedMatchAt (cs : Str) : Option ReAt :=
  if "(@@".data.isPrefixOf cs then
    let r1 := cs.drop 3
    let u := r1.takeWhile (fun x => x ≠ '@')
    if u.isEmpty then none
    else
      match r1.drop u.length with
      | '@' :: '@' :: ')' :: r2 =>
        some { matched := "(@@".data ++ u ++ "@@)".data, g1 := u, after := r2 }
      | _ => none
  else none

/-- `localFileLinkRegexp.MatchString`: the regexp is anchored at both
ends, so it holds exactly of a non-empty run of file name characters, a
dot, and a non-empty alphabetic extension; equivalently, the split at
the final dot works. -/
def localFileLinkMatch (s : Str) : Bool :=
  let rev := s.reverse
  let ext := rev.takeWhile isAlphaChar
  match rev.drop ext.length with
  | '.' :: restRev => !ext.isEmpty && !restRev.isEmpty && restRev.all isLocalFileChar
  | _ => false

/-! ## The accessors and the converter -/

/-- `trac.NullID`.  The defining constant is not among the sources; no
theorem depends on its value, only on comparisons with it. -/
def tracNullID : Int := -1

/-- `gitea.NullID`.  The defining constant is not among the sources; no
theorem depends on its value, only on comparisons with it. -/
def giteaNullID : Int := -1

/-- The trac accessor methods used by the converter, modelled as fixed
collaborator responses; `none` models a call returning a non-nil error. -/
structure TracAccessor where
  getFullPath : Str → Str → Str
  getTicketCommentTime : Int → Int → Option Int

/-- The gitea accessor methods used by the converter, modelled as fixed
collaborator responses; `none` models a call returning a non-nil error. -/
structure GiteaAccessor where
  getIssueID : Int → Option Int
  getIssueCommentIDsByTime : Int → Int → Option (List Int)
  getIssueCommentURL : Int → Int → Str
  getMilestoneID : Str → Option Int
  getMilestoneURL : Int → Str
  getIssueAttachmentUUID : Int → Str → Option Str
  getIssueAttachmentURL : Int → Str → Str
  getWikiAttachmentRelPath : Str → Str → Str
  getWikiFileURL : Str → Str
  getWikiHtdocRelPath : Str → Str
  copyFileToWiki : Str → Str → Unit
  getCommitURL : Str → Str
  getSourceURL : Str → Str → Str
  getIssueURL : Int → Str
  translateWikiPageName : Str → Str

/-- The default converter: the two accessors, together with the inline
transforms that the specification declares external collaborators (their
code is not among the conversion core sources), modelled as fixed
collaborator responses. -/
structure DefaultConverter where
  tracAccessor : TracAccessor
  giteaAccessor : GiteaAccessor
  convertAnchors : Str → Str
  convertEscapes : Str → Str
  convertLists : Str → Str
  convertDefinitionLists : Str → Str
  convertHeadings : Str → Str
  convertFontStyles : Str → Str
  convertBlockQuotes : Str → Str
  convertTables : Str → Str
  convertParagraphs : Str → Str

/-- `markLink`: wrap the URL part of a link in the unique marker. -/
def markLink (s : Str) : Str := "(@@".data ++ s ++ "@@)".data

/-! ## link.go: resolution functions -/

def resolveHTTPLink (_conv : DefaultConverter) (link : Str) : Str := markLink link

def resolveHtdocsLink (conv : DefaultConverter) (link : Str) : Str :=
  let htdocPath := reReplaceAllG1 htdocsMatchAt link
  let tracHtdocPath := conv.tracAccessor.getFullPath "htdocs".data htdocPath
  let wikiHtdocRelPath := conv.giteaAccessor.getWikiHtdocRelPath htdocPath
  let _ := conv.giteaAccessor.copyFileToWiki tracHtdocPath wikiHtdocRelPath
  markLink (conv.giteaAccessor.getWikiFileURL wikiHtdocRelPath)

/-- `resolveTicketCommentLink`: each failing step (invalid number,
missing ticket context, issue lookup miss, missing comment timestamp,
no comment ids at the timestamp) returns the link unresolved. -/
def resolveTicketCommentLink (conv : DefaultConverter) (ticketID : Int) (link : Str) : Str :=
  let commentNumStr := reReplaceAllG1 ticketCommentMatchAt link
  match parseInt64 commentNumStr with
  | none => link
  | some commentNum =>
    let commentTicketIDStr := reReplaceAllG2 ticketCommentMatchAt link
    let resolvedTicket : Option Int :=
      if commentTicketIDStr ≠ [] then parseInt64 commentTicketIDStr
      else if ticketID = tracNullID then none
      else some ticketID
    match resolvedTicket with
    | none => link
    | some commentTicketID =>
      match conv.giteaAccessor.getIssueID commentTicketID with
      | none => link
      | some issueID =>
        if issueID = giteaNullID then link
        else
          match conv.tracAccessor.getTicketCommentTime commentTicketID commentNum with
          | none => link
          | some timestamp =>
            if timestamp = 0 then link
            else
              match conv.giteaAccessor.getIssueCommentIDsByTime issueID timestamp with
              | none => link
              | some [] => link
              | some (commentID :: _) =>
                markLink (conv.giteaAccessor.getIssueCommentURL issueID commentID)

def resolveMilestoneLink (conv : DefaultConverter) (link : Str) : Str :=
  let milestoneName := reReplaceAllG1 milestoneMatchAt link
  match conv.giteaAccessor.getMilestoneID milestoneName with
  | none => link
  | some milestoneID =>
    if milestoneID = giteaNullID then link
    else markLink (conv.giteaAccessor.getMilestoneURL milestoneID)

def resolveTicketAttachmentLink (conv : DefaultConverter) (ticketID : Int)
    (attachmentName link : Str) : Str :=
  match conv.giteaAccessor.getIssueID ticketID with
  | none => link
  | some issueID =>
    if issueID = giteaNullID then link
    else
      match conv.giteaAccessor.getIssueAttachmentUUID issueID attachmentName with
      | none => link
      | some uuid =>
        if uuid = [] then link
        else markLink (conv.giteaAccessor.getIssueAttachmentURL issueID uuid)

def resolveWikiAttachmentLink (conv : DefaultConverter) (wikiPage attachmentName _link : Str) :
    Str :=
  let attachmentWikiRelPath := conv.giteaAccessor.getWikiAttachmentRelPath wikiPage attachmentName
  markLink (conv.giteaAccessor.getWikiFileURL attachmentWikiRelPath)

/-- `resolveAttachmentLink`: explicit suffix first, else the ticket
context, else the wiki context, else the link stays unresolved. -/
def resolveAttachmentLink (conv : DefaultConverter) (ticketID : Int) (wikiPage link : Str) : Str :=
  let attachmentName := reReplaceAllG1 attachmentMatchAt link
  let attachmentWikiPage := reReplaceAllG2 attachmentMatchAt link
  let attachmentTicketIDStr := reReplaceAllG3 attachmentMatchAt link
  if attachmentTicketIDStr ≠ [] then
    match parseInt64 attachmentTicketIDStr with
    | none => link
    | some attachmentTicketID => resolveTicketAttachmentLink conv attachmentTicketID attachmentName link
  else if attachmentWikiPage ≠ [] then
    resolveWikiAttachmentLink conv attachmentWikiPage attachmentName link
  else if ticketID ≠ tracNullID then
    resolveTicketAttachmentLink conv ticketID attachmentName link
  else if wikiPage ≠ [] then
    resolveWikiAttachmentLink conv wikiPage attachmentName link
  else link

def resolveChangesetLink (conv : DefaultConverter) (link : Str) : Str :=
  markLink (conv.giteaAccessor.getCommitURL (reReplaceAllG1 changesetMatchAt link))

def resolveSourceLink (conv : DefaultConverter) (link : Str) : Str :=
  markLink (conv.giteaAccessor.getSourceURL "master".data (reReplaceAllG1 sourceMatchAt link))

def resolveTicketLink (conv : DefaultConverter) (link : Str) : Str :=
  let ticketIDStr := reReplaceAllG1 ticketMatchAt link
  match parseInt64 ticketIDStr with
  | none => link
  | some ticketID =>
    match conv.giteaAccessor.getIssueID ticketID with
    | none => link
    | some issueID =>
      if issueID = giteaNullID then link
      else markLink (conv.giteaAccessor.getIssueURL issueID)

def resolveWikiLink (conv : DefaultConverter) (link : Str) : Str :=
  let wikiPageName := reReplaceAllG1 wikiMatchAt link
  let wikiPageAnchor := reReplaceAllG2 wikiMatchAt link
  let translatedPageName := conv.giteaAccessor.translateWikiPageName wikiPageName
  if wikiPageAnchor = [] then markLink translatedPageName
  else markLink (translatedPageName ++ '#' :: wikiPageAnchor)

def resolveWikiCamelCaseLink (conv : DefaultConverter) (link : Str) : Str :=
  let leadingChar := camelReplaceAllG1 link
  let wikiPageName := camelReplaceAllG2 link
  let wikiPageAnchor := camelReplaceAllG3 link
  let translatedPageName := conv.giteaAccessor.translateWikiPageName wikiPageName
  if wikiPageAnchor = [] then leadingChar ++ markLink translatedPageName
  else leadingChar ++ markLink (translatedPageName ++ '#' :: wikiPageAnchor)

/-! ## link.go: the three phases -/

/-- Phase 1: dispose of the trac bracketting (image links, double
bracket links to single bracket form, single bracket links to the
zero-width-space deferred form). -/
def convertBrackettedTracLinks (conv : DefaultConverter) (wikiPage : Str) (s : Str) : Str :=
  let out := s
  let out := reReplaceAll imageMatchAt (fun m =>
    let image := reReplaceAllG1 imageMatchAt m.matched
    let link := reReplaceAllG2 imageMatchAt m.matched
    let image :=
      if localFileLinkMatch image then
        markLink (conv.giteaAccessor.getWikiAttachmentRelPath wikiPage image)
      else image
    if link = [] then "![]".data ++ image ++ [zws]
    else "[![]".data ++ image ++ ']' :: (link ++ [zws])) out
  let out := reReplaceAll doubleBracketMatchAt (fun m =>
    let link := reReplaceAllG1 doubleBracketMatchAt m.matched
    let text := reReplaceAllG2 doubleBracketMatchAt m.matched
    if text = [] then
      if asciiEqualFold link "br".data then m.matched
      else '[' :: (link ++ [']'])
    else '[' :: (link ++ ' ' :: (text ++ [']']))) out
  reReplaceAll singleBracketMatchAt (fun m =>
    let link := reReplaceAllG1 singleBracketMatchAt m.matched
    let text := reReplaceAllG2 singleBracketMatchAt m.matched
    if text = [] then
      if asciiEqualFold link "br".data then m.matched
      else zws :: (link ++ [zws])
    else '[' :: (text ++ ']' :: (link ++ [zws]))) out

/-- Phase 2: recognize and resolve the unbracketted trac links, in the
order of link.go (the standalone ticket and wiki links only after the
links they can be suffixes of). -/
def convertUnbrackettedTracLinks (conv : DefaultConverter) (ticketID : Int) (wikiPage : Str)
    (s : Str) : Str :=
  let out := s
  let out := reReplaceAll httpMatchAt (fun m => resolveHTTPLink conv m.matched) out
  let out := reReplaceAll htdocsMatchAt (fun m => resolveHtdocsLink conv m.matched) out
  let out := reReplaceAll ticketCommentMatchAt
    (fun m => resolveTicketCommentLink conv ticketID m.matched) out
  let out := reReplaceAll milestoneMatchAt (fun m => resolveMilestoneLink conv m.matched) out
  let out := reReplaceAll attachmentMatchAt
    (fun m => resolveAttachmentLink conv ticketID wikiPage m.matched) out
  let out := reReplaceAll changesetMatchAt (fun m => resolveChangesetLink conv m.matched) out
  let out := reReplaceAll sourceMatchAt (fun m => resolveSourceLink conv m.matched) out
  let out := reReplaceAll ticketMatchAt (fun m => resolveTicketLink conv m.matched) out
  let out := reReplaceAll wikiMatchAt (fun m => resolveWikiLink conv m.matched) out
  camelReplaceAll (fun m => resolveWikiCamelCaseLink conv m.matched) out

/-- Phase 3: turn every marked span into final markdown (autolink for a
bare http(s) URL with no accompanying text, degenerate bracket link
otherwise, plain round-bracket target after phase-1 text), then remove
the zero-width spaces. -/
def unmarkLinks (_conv : DefaultConverter) (s : Str) : Str :=
  let out := reReplaceAll noTextMarkedMatchAt (fun m =>
    let leadingChar := reReplaceAllG1 noTextMarkedMatchAt m.matched
    let markdownURL := reReplaceAllG2 noTextMarkedMatchAt m.matched
    if (reFind httpMatchAt markdownURL).isSome then
      leadingChar ++ '<' :: (markdownURL ++ ['>'])
    else
      leadingChar ++ '[' :: (markdownURL ++ ']' :: '(' :: (markdownURL ++ [')']))) s
  let out := reReplaceAll markedMatchAt (fun m =>
    let markdownURL := reReplaceAllG1 markedMatchAt m.matched
    '(' :: (markdownURL ++ [')'])) out
  replaceAllSeq zws [] [] out

/-- `convertLinks`: the three phases in order. -/
def convertLinks (conv : DefaultConverter) (ticketID : Int) (wikiPage : Str) (s : Str) : Str :=
  let out := convertBrackettedTracLinks conv wikiPage s
  let out := convertUnbrackettedTracLinks conv ticketID wikiPage out
  unmarkLinks conv out

/-! ## convertEOL -/

/-- Modelled from the spec:  the EOL normalizer ("ensure we have Unix
EOLs") is declared an external collaborator and its code is not among the
conversion core sources; it is modelled as rewriting CRLF and lone CR
line endings to LF. -/
def convertEOLL : Str → Str
  | [] => []
  | '\r' :: '\n' :: cs => '\n' :: convertEOLL cs
  | '\r' :: cs => '\n' :: convertEOLL cs
  | c :: cs => c :: convertEOLL cs

/-! ## defaultConverter.go: orchestration -/

/-- `convertNonCodeBlockText`: the inline transform chain applied to a
non-code segment. -/
def convertNonCodeBlockText (conv : DefaultConverter) (ticketID : Int) (wikiPage : Str)
    (s : Str) : Str :=
  let out := removeTOCL s
  let out := convertLinks conv ticketID wikiPage out
  let out := conv.convertAnchors out
  let out := conv.convertEscapes out
  let out := conv.convertLists out
  let out := conv.convertDefinitionLists out
  let out := conv.convertHeadings out
  let out := disguiseLinksL out
  let out := conv.convertFontStyles out
  let out := undisguiseLinksL out
  let out := conv.convertBlockQuotes out
  let out := conv.convertTables out
  conv.convertParagraphs out

/-- `convert`: EOL normalization, code block conversion, the inline
transforms on non-code segments only, and final undisguising. -/
def convert (conv : DefaultConverter) (ticketID : Int) (wikiPage : Str) (s : Str) : Str :=
  let out := convertEOLL s
  let out := (convertCodeBlocksL out).1
  let out := convertNonCodeBlocksL out (fun x => convertNonCodeBlockText conv ticketID wikiPage x)
  undisguiseCodeBlocksL out

/-- `TicketConvert`: the public entry point for ticket text. -/
def TicketConvert (conv : DefaultConverter) (ticketID : Int) (s : Str) : Str :=
  convert conv ticketID [] s

/-- `WikiConvert`: the public entry point for wiki text. -/
def WikiConvert (conv : DefaultConverter) (wikiPage : Str) (s : Str) : Str :=
  convert conv tracNullID wikiPage s

/-! ## Fixture collaborators for concrete evaluations -/

/-- A trac accessor fixture whose lookups all fail. -/
def tracFailing : TracAccessor :=
  { getFullPath := fun _ p => p
    getTicketCommentTime := fun _ _ => none }

/-- A gitea accessor fixture whose lookups all fail (errors or null
results). -/
def giteaFailing : GiteaAccessor :=
  { getIssueID := fun _ => none
    getIssueCommentIDsByTime := fun _ _ => none
    getIssueCommentURL := fun _ _ => []
    getMilestoneID := fun _ => none
    getMilestoneURL := fun _ => []
    getIssueAttachmentUUID := fun _ _ => none
    getIssueAttachmentURL := fun _ _ => []
    getWikiAttachmentRelPath := fun w a => w ++ '/' :: a
    getWikiFileURL := fun p => p
    getWikiHtdocRelPath := fun p => p
    copyFileToWiki := fun _ _ => ()
    getCommitURL := fun h => h
    getSourceURL := fun _ p => p
    getIssueURL := fun _ => []
    translateWikiPageName := fun n => "Transformed".data ++ n }

/-- A gitea accessor fixture whose lookups succeed but find nothing
(null ids, empty lists). -/
def giteaNullResults : GiteaAccessor :=
  { getIssueID := fun _ => some giteaNullID
    getIssueCommentIDsByTime := fun _ _ => some []
    getIssueCommentURL := fun _ _ => []
    getMilestoneID := fun _ => some giteaNullID
    getMilestoneURL := fun _ => []
    getIssueAttachmentUUID := fun _ _ => some []
    getIssueAttachmentURL := fun _ _ => []
    getWikiAttachmentRelPath := fun w a => w ++ '/' :: a
    getWikiFileURL := fun p => p
    getWikiHtdocRelPath := fun p => p
    copyFileToWiki := fun _ _ => ()
    getCommitURL := fun h => h
    getSourceURL := fun _ p => p
    getIssueURL := fun _ => []
    translateWikiPageName := fun n => "Transformed".data ++ n }

/-- A converter fixture with failing lookups and identity inline
transforms. -/
def convFixture : DefaultConverter :=
  { tracAccessor := tracFailing
    giteaAccessor := giteaFailing
    convertAnchors := id
    convertEscapes := id
    convertLists := id
    convertDefinitionLists := id
    convertHeadings := id
    convertFontStyles := id
    convertBlockQuotes := id
    convertTables := id
    convertParagraphs := id }

/-- A converter fixture with nothing-found lookups and identity inline
transforms. -/
def convNullFixture : DefaultConverter :=
  { convFixture with giteaAccessor := giteaNullResults }

end Trac2Gitea

/-! ## Theorems -/

namespace Trac2Gitea

unseal replaceAllSeq parseCodeBlocksL singleLineCloserScan undisguiseSingleLine
  nonCodeContentScan convertNonCodeAux removeTOCL disguiseLinksL undisguiseLinksL
  reReplaceAll camelReplaceAllAux upperLowerStarSeq camelWordSeq

set_option maxRecDepth 1000000

/-- C9: for the empty input string, both public entry points
`TicketConvert` and `WikiConvert` return the empty string, for every
converter (collaborators and inline transforms are never invoked on the
empty document). -/
theorem claim_C9_empty_input (conv : DefaultConverter) (ticketID : Int) (wikiPage : Str) :
    TicketConvert conv ticketID [] = [] ∧ WikiConvert conv wikiPage [] = [] :=
  ⟨rfl, rfl⟩

/-- C7: given fixed collaborator responses (the converter record), the
public entry points and the link conversion are deterministic: two runs
on equal inputs yield equal outputs. -/
theorem claim_C7_deterministic (conv₁ conv₂ : DefaultConverter) (t₁ t₂ : Int)
    (w₁ w₂ s₁ s₂ link₁ link₂ : Str)
    (hconv : conv₁ = conv₂) (ht : t₁ = t₂) (hw : w₁ = w₂) (hs : s₁ = s₂) (hlink : link₁ = link₂) :
    TicketConvert conv₁ t₁ s₁ = TicketConvert conv₂ t₂ s₂ ∧
    WikiConvert conv₁ w₁ s₁ = WikiConvert conv₂ w₂ s₂ ∧
    convertLinks conv₁ t₁ w₁ link₁ = convertLinks conv₂ t₂ w₂ link₂ := by
  subst hconv ht hw hs hlink
  exact ⟨rfl, rfl, rfl⟩

/-- C7 witness: the determinism theorem applied at a concrete converter
and document. -/
theorem claim_C7_deterministic_witness :
    TicketConvert convFixture 1 "a ticket:2 b".data = TicketConvert convFixture 1 "a ticket:2 b".data ∧
    WikiConvert convFixture "P".data "a ticket:2 b".data = WikiConvert convFixture "P".data "a ticket:2 b".data ∧
    convertLinks convFixture 1 "P".data "a ticket:2 b".data = convertLinks convFixture 1 "P".data "a ticket:2 b".data :=
  claim_C7_deterministic convFixture convFixture 1 1 "P".data "P".data
    "a ticket:2 b".data "a ticket:2 b".data "a ticket:2 b".data "a ticket:2 b".data
    rfl rfl rfl rfl rfl

/-- C1 (code evaluation at the failing input): a `\x7b\x7b\x7b` opening
whose processor token is `htmlcomment` is treated as a raw html block,
not as a comment: the opening boundary conversion yields the empty
boundary and the `html` block type (the `html` check overrides the
`htmlcomment` one, whose branch can never take effect), so the whole
block is emitted with no comment delimiters at all. -/
theorem claim_C1_htmlcomment_is_raw_html :
    openBoundaryConversion "htmlcomment".data = ([], "html".data) ∧
    parseCodeBlocksL "\x7b\x7b\x7b#!htmlcomment\nsecret\n\x7d\x7d\x7d".data [] =
      ("\nsecret\n".data, false) :=
  ⟨rfl, rfl⟩

/-- C6: reaching end of input (no further boundary token) with a
non-empty open-block stack reports the malformed input (the boolean
diagnostic) and still returns the text built so far; the conversion does
not fail. -/
theorem claim_C6_unclosed_is_nonfatal :
    (∀ (cs : Str) (acc : List Str), splitAtBoundary cs = none → acc ≠ [] →
      parseCodeBlocksL cs acc = (cs, true)) ∧
    convertCodeBlocksL "\x7b\x7b\x7b\nabc".data = (fenceOpen ++ "\nabc".data, true) := by
  constructor
  · intro cs acc h hacc
    rw [parseCodeBlocksL]
    rw [h]
    simp only [Prod.mk.injEq, true_and]
    cases acc with
    | nil => exact absurd rfl hacc
    | cons a l => simp
  · rfl

/-- C6 witness: the theorem applied at a concrete boundary-free text and
non-empty stack. -/
theorem claim_C6_unclosed_is_nonfatal_witness :
    parseCodeBlocksL "abc".data ["html".data] = ("abc".data, true) :=
  claim_C6_unclosed_is_nonfatal.1 "abc".data ["html".data] rfl (by simp)

/-- C8: the recursive code block parser terminates on every input: a
split at a boundary leaves a strictly shorter remaining text, the
processor cut never lengthens it, and a text with no boundary token
returns immediately. -/
theorem claim_C8_terminates :
    (∀ (cs b : Str) (k : Bool) (a : Str), splitAtBoundary cs = some (b, k, a) →
      a.length < cs.length) ∧
    (∀ a : Str, (processorCut a).2.length ≤ a.length) ∧
    (∀ (cs : Str) (acc : List Str), splitAtBoundary cs = none →
      parseCodeBlocksL cs acc = (cs, !acc.isEmpty)) := by
  refine ⟨?_, processorCut_length, ?_⟩
  · intro cs b k a h
    have := splitAtBoundary_length h
    omega
  · intro cs acc h
    rw [parseCodeBlocksL]
    rw [h]

lemma boundaryAt_cons3_none {a b c : Char} {t : Str} :
    boundaryAt (a :: b :: c :: t) = none ↔
      ¬(a = '\x7b' ∧ b = '\x7b' ∧ c = '\x7b') ∧ ¬(a = '\x7d' ∧ b = '\x7d' ∧ c = '\x7d') := by
  show (if a = '\x7b' && b = '\x7b' && c = '\x7b' then some (true, t)
        else if a = '\x7d' && b = '\x7d' && c = '\x7d' then (some (false, t) : Option (Bool × Str))
        else none) = none ↔ _
  split_ifs with h1 h2 <;> simp_all

/-- Padding the tail of a non-empty text with a third closing brace (and
anything after) cannot create a boundary token where there was none. -/
lemma boundaryAt_pad {x : Str} (after : Str) (hx : x ≠ [])
    (h : boundaryAt (x ++ '\x7d' :: '\x7d' :: []) = none) :
    boundaryAt (x ++ '\x7d' :: '\x7d' :: '\x7d' :: after) = none := by
  match x with
  | [] => exact absurd rfl hx
  | [a] =>
    simp only [List.cons_append, List.nil_append] at h ⊢
    rw [boundaryAt_cons3_none] at h ⊢
    simpa using h
  | [a, b] =>
    simp only [List.cons_append, List.nil_append] at h ⊢
    rw [boundaryAt_cons3_none] at h ⊢
    simpa using h
  | a :: b :: c :: r =>
    simp only [List.cons_append] at h ⊢
    rw [boundaryAt_cons3_none] at h ⊢
    simpa using h

/-- If the text before a closing triple bracket cannot combine with it
into any boundary token, the leftmost boundary of the combined text is
exactly that closing bracket. -/
lemma splitAtBoundary_append_close (before after : Str)
    (h : splitAtBoundary (before ++ '\x7d' :: '\x7d' :: []) = none) :
    splitAtBoundary (before ++ '\x7d' :: '\x7d' :: '\x7d' :: after) = some (before, false, after) := by
  induction before with
  | nil => rfl
  | cons c b ih =>
    rw [List.cons_append] at h ⊢
    rw [splitAtBoundary] at h ⊢
    rcases hb : boundaryAt (c :: (b ++ '\x7d' :: '\x7d' :: [])) with _ | p
    · rw [hb] at h
      have hb2 : boundaryAt (c :: (b ++ '\x7d' :: '\x7d' :: '\x7d' :: after)) = none := by
        have := boundaryAt_pad (x := c :: b) after (by simp)
        simp only [List.cons_append] at this
        exact this hb
      rw [hb2]
      rcases hs : splitAtBoundary (b ++ '\x7d' :: '\x7d' :: []) with _ | q
      · rw [ih hs]
      · rw [hs] at h
        exact absurd h (by simp)
    · rw [hb] at h
      exact absurd h (by simp)

/-- C4: a closing boundary met with an empty open-block stack is emitted
unchanged as literal text, no diagnostic is raised at that step, and
parsing continues on the remaining text with an empty stack. -/
theorem claim_C4_unmatched_close (before after : Str)
    (h : splitAtBoundary (before ++ '\x7d' :: '\x7d' :: []) = none) :
    parseCodeBlocksL (before ++ '\x7d' :: '\x7d' :: '\x7d' :: after) [] =
      (before ++ '\x7d' :: '\x7d' :: '\x7d' :: (parseCodeBlocksL after []).1,
       (parseCodeBlocksL after []).2) := by
  rw [parseCodeBlocksL]
  rw [splitAtBoundary_append_close before after h]
  rfl

/-- C4 witness: a lone closing triple bracket inside plain text passes
through unchanged and parsing continues (here converting a later code
block). -/
theorem claim_C4_unmatched_close_witness :
    parseCodeBlocksL ("ab".data ++ '\x7d' :: '\x7d' :: '\x7d' :: "cd\x7b\x7b\x7bx\x7d\x7d\x7de".data) [] =
      ("ab".data ++ '\x7d' :: '\x7d' :: '\x7d' ::
        ("cd".data ++ fenceOpen ++ "x".data ++ fenceClose ++ "e".data),
       false) := by
  rw [claim_C4_unmatched_close "ab".data "cd\x7b\x7b\x7bx\x7d\x7d\x7de".data rfl]
  rfl

/-! Auxiliary facts about `goTrimSpace` for the language recognition. -/

lemma goTrim_head (c : Char) (r : Str) (hc : isUniSpace c = false) :
    goTrimSpace (c :: r) = [] ∨ (goTrimSpace (c :: r)).head? = some c := by
  unfold goTrimSpace trimLeftL trimRightL
  rw [List.dropWhile_cons, hc]
  simp only [Bool.false_eq_true, if_false]
  have hpre : ((c :: r).reverse.dropWhile isUniSpace).reverse <+: c :: r := by
    have h0 : (c :: r).reverse.dropWhile isUniSpace <:+ (c :: r).reverse :=
      List.dropWhile_suffix isUniSpace
    have h1 := List.reverse_prefix.mpr h0
    rwa [List.reverse_reverse] at h1
  rcases hpre with ⟨t, ht⟩
  rcases he : ((c :: r).reverse.dropWhile isUniSpace).reverse with _ | ⟨x, xs⟩
  · exact Or.inl rfl
  · right
    rw [he] at ht
    simp only [List.cons_append] at ht
    rw [List.head?_cons]
    exact congrArg some (List.cons.injEq .. ▸ ht).1

lemma goTrim_length_ge {p r : Str}
    (h1 : (p ++ r).dropWhile isUniSpace = p ++ r)
    (h2 : p.reverse.dropWhile isUniSpace = p.reverse) :
    p.length ≤ (goTrimSpace (p ++ r)).length := by
  unfold goTrimSpace trimLeftL trimRightL
  rw [h1, List.reverse_append, List.dropWhile_append]
  split
  · rw [h2]
    simp
  · simp

/-- Trimmed membership of the recognized-language set excludes every
override of the opening-boundary conversion: no HTML tag, comment or
html prefix can be present. -/
lemma lang_no_overrides {tp : Str} (h : goTrimSpace tp ∈ codeLangs) :
    htmlTags.find? (fun tag => tag.isPrefixOf tp) = none ∧
    "comment".data.isPrefixOf tp = false ∧
    "htmlcomment".data.isPrefixOf tp = false ∧
    "html".data.isPrefixOf tp = false := by
  simp only [codeLangs, List.mem_cons, List.not_mem_nil, or_false] at h
  have headFact : ∀ (c : Char) (p : Str), isUniSpace c = false →
      (c :: p).isPrefixOf tp = true → goTrimSpace tp = [] ∨ (goTrimSpace tp).head? = some c := by
    intro c p hc hpre
    rcases List.isPrefixOf_iff_prefix.mp hpre with ⟨t, ht⟩
    subst ht
    exact goTrim_head c (p ++ t) hc
  have lenFact : ∀ p : Str, p.reverse.dropWhile isUniSpace = p.reverse →
      (∀ c r, p = c :: r → isUniSpace c = false) →
      p.isPrefixOf tp = true → p.length ≤ (goTrimSpace tp).length := by
    intro p h2 hhead hpre
    rcases List.isPrefixOf_iff_prefix.mp hpre with ⟨t, ht⟩
    subst ht
    cases p with
    | nil => simp
    | cons c r =>
      apply goTrim_length_ge _ h2
      rw [List.cons_append, List.dropWhile_cons, hhead c r rfl]
      simp
  constructor
  · rw [List.find?_eq_none]
    intro tag htag
    simp only [htmlTags, List.mem_cons, List.not_mem_nil, or_false] at htag
    simp only [Bool.not_eq_true]
    by_contra hb
    simp only [Bool.not_eq_false] at hb
    rcases htag with rfl | rfl | rfl | rfl | rfl <;>
      [have hd := headFact 'd' "iv".data (by decide) hb;
       have hd := headFact 't' "d".data (by decide) hb;
       have hd := headFact 't' "h".data (by decide) hb;
       have hd := headFact 't' "r".data (by decide) hb;
       have hd := headFact 't' "able".data (by decide) hb] <;>
    · rcases h with h | h | h | h | h | h | h | h <;> rw [h] at hd <;> simp at hd
  refine ⟨?_, ?_, ?_⟩ <;>
  · simp only [Bool.not_eq_true]
    by_contra hb
    simp only [Bool.not_eq_false] at hb
    first
    | have hl := lenFact "comment".data (by decide) (by intro c r he; cases he; decide) hb
    | have hl := lenFact "htmlcomment".data (by decide) (by intro c r he; cases he; decide) hb
    | have hl := lenFact "html".data (by decide) (by intro c r he; cases he; decide) hb
    rcases h with h | h | h | h | h | h | h | h <;> rw [h] at hl <;> simp at hl

/-- C3: a processor token whose trimmed form is exactly one of the
recognized languages yields a disguised fence tagged with the
alias-mapped language (dropping the `#!` marker); an unrecognized token
that triggers no HTML tag, comment or html case yields the generic
disguised fence carrying the raw `#!token` verbatim, with the plain
block type in both cases. -/
theorem claim_C3_language_recognition (tp : Str) :
    (goTrimSpace tp ∈ codeLangs →
      openBoundaryConversion tp = (fenceOpen ++ mapCodeLang (goTrimSpace tp), [])) ∧
    (tp ≠ [] → goTrimSpace tp ∉ codeLangs →
      (∀ tag ∈ htmlTags, tag.isPrefixOf tp = false) →
      "comment".data.isPrefixOf tp = false →
      "htmlcomment".data.isPrefixOf tp = false →
      "html".data.isPrefixOf tp = false →
      openBoundaryConversion tp = (fenceOpen ++ '#' :: '!' :: tp, [])) := by
  constructor
  · intro h
    obtain ⟨hfind, hc, hhc, hh⟩ := lang_no_overrides h
    unfold openBoundaryConversion
    rw [hfind, hc, hhc, hh]
    simp only [Bool.false_eq_true, if_false, Bool.or_self]
    have hne : tp ≠ [] := by
      intro he
      subst he
      simp [goTrimSpace, trimLeftL, trimRightL, codeLangs] at h
    simp only [ne_eq, hne, not_false_eq_true, if_true]
    simp only [codeLangs, List.mem_cons, List.not_mem_nil, or_false] at h
    rcases h with h | h | h | h | h | h | h | h <;>
      rw [h] <;> simp [codeLangs, List.foldl, h]
  · intro hne hnot hfindall hc hhc hh
    unfold openBoundaryConversion
    have hfind : htmlTags.find? (fun tag => tag.isPrefixOf tp) = none := by
      rw [List.find?_eq_none]
      intro tag htag
      rw [hfindall tag htag]
      simp
    rw [hfind, hc, hhc, hh]
    simp only [Bool.false_eq_true, if_false, Bool.or_self]
    simp only [ne_eq, hne, not_false_eq_true, if_true]
    simp only [codeLangs, List.mem_cons, List.not_mem_nil, or_false, not_or] at hnot
    obtain ⟨h1, h2, h3, h4, h5, h6, h7, h8⟩ := hnot
    simp [codeLangs, List.foldl, h1, h2, h3, h4, h5, h6, h7, h8]

/-- C3 witness: the token `c++` is recognized and mapped to `cpp`; the
token `python` is not in the recognized set and keeps the raw `#!python`
marker. -/
theorem claim_C3_language_recognition_witness :
    openBoundaryConversion "c++".data = (fenceOpen ++ "cpp".data, []) ∧
    openBoundaryConversion "python".data = (fenceOpen ++ "#!python".data, []) := by
  constructor
  · have := (claim_C3_language_recognition "c++".data).1 (by decide)
    rw [this]
    rfl
  · have := (claim_C3_language_recognition "python".data).2 (by decide) (by decide)
      (by decide) (by decide) (by decide) (by decide)
    rw [this]

/-! Auxiliary development for the disguise/undisguise round trip. -/

/-- Whether `pat` occurs as a contiguous subsequence of the text. -/
def containsSeq (pat : Str) : Str → Bool
  | [] => pat.isPrefixOf []
  | c :: cs => pat.isPrefixOf (c :: cs) || containsSeq pat cs

lemma containsSeq_tail {pat : Str} {c : Char} {cs : Str}
    (h : containsSeq pat (c :: cs) = false) : containsSeq pat cs = false := by
  unfold containsSeq at h
  exact (Bool.or_eq_false_iff.mp h).2

lemma containsSeq_append_right {pat : Str} :
    ∀ {u v : Str}, containsSeq pat (u ++ v) = false → containsSeq pat v = false := by
  intro u
  induction u with
  | nil => intro v h; simpa using h
  | cons c cs ih => intro v h; exact ih (containsSeq_tail h)

lemma containsSeq_of_isPrefixOf {pat l : Str} (h : pat.isPrefixOf l = true) :
    containsSeq pat l = true := by
  cases l with
  | nil => simpa [containsSeq] using h
  | cons c cs => simp [containsSeq, h]

lemma isPrefixOf_append_self (a b : Str) : a.isPrefixOf (a ++ b) = true :=
  List.isPrefixOf_iff_prefix.mpr (List.prefix_append a b)

/-- A pattern free of the letter h that sits at the front of a disguised
text already sat at the front of the original text: every rewritten
chunk starts with that letter. -/
lemma isPrefixOf_disguise :
    ∀ (t pat : Str), (∀ c ∈ pat, c ≠ 'h') →
      pat.isPrefixOf (disguiseLinksL t) = true → pat.isPrefixOf t = true := by
  intro t
  induction t with
  | nil => intro pat _ h; simpa [disguiseLinksL] using h
  | cons c cs ih =>
    intro pat hh hp
    rw [disguiseLinksL] at hp
    split_ifs at hp with hs1 hs2
    · cases pat with
      | nil => simp [List.isPrefixOf]
      | cons p ps =>
        exfalso
        rw [show "https:@@".data ++ disguiseLinksL (cs.drop 7) =
          'h' :: ("ttps:@@".data ++ disguiseLinksL (cs.drop 7)) from rfl] at hp
        simp only [List.isPrefixOf, Bool.and_eq_true, beq_iff_eq] at hp
        exact hh p (List.mem_cons_self p ps) hp.1
    · cases pat with
      | nil => simp [List.isPrefixOf]
      | cons p ps =>
        exfalso
        rw [show "http:@@".data ++ disguiseLinksL (cs.drop 6) =
          'h' :: ("ttp:@@".data ++ disguiseLinksL (cs.drop 6)) from rfl] at hp
        simp only [List.isPrefixOf, Bool.and_eq_true, beq_iff_eq] at hp
        exact hh p (List.mem_cons_self p ps) hp.1
    · cases pat with
      | nil => simp [List.isPrefixOf]
      | cons p ps =>
        simp only [List.isPrefixOf, Bool.and_eq_true, beq_iff_eq] at hp ⊢
        exact ⟨hp.1, ih ps (fun x hx => hh x (List.mem_cons_of_mem p hx)) hp.2⟩

lemma undis_dis_aux :
    ∀ (n : Nat) (s : Str), s.length ≤ n →
      containsSeq "http:@@".data s = false →
      containsSeq "https:@@".data s = false →
      undisguiseLinksL (disguiseLinksL s) = s := by
  intro n
  induction n with
  | zero =>
    intro s hl _ _
    have hs : s = [] := by cases s <;> simp_all
    subst hs
    rfl
  | succ n ih =>
    intro s hl h1 h2
    match s with
    | [] => rfl
    | c :: cs =>
      by_cases hs1 : "https://".data.isPrefixOf (c :: cs) = true
      · obtain ⟨t, ht⟩ := List.isPrefixOf_iff_prefix.mp hs1
        have ht' : 'h' :: ("ttps://".data ++ t) = c :: cs := ht
        have hc : c = 'h' := (List.cons.injEq .. ▸ ht').1.symm
        have hcs : cs = "ttps://".data ++ t := (List.cons.injEq .. ▸ ht').2.symm
        have hd : disguiseLinksL (c :: cs) = "https:@@".data ++ disguiseLinksL t := by
          rw [disguiseLinksL, if_pos hs1, hcs,
            show (7 : Nat) = "ttps://".data.length from rfl, List.drop_left]
        have hx : "https:@@".data ++ disguiseLinksL t =
            'h' :: ("ttps:@@".data ++ disguiseLinksL t) := rfl
        have hu : undisguiseLinksL ("https:@@".data ++ disguiseLinksL t) =
            "https://".data ++ undisguiseLinksL (disguiseLinksL t) := by
          rw [hx, undisguiseLinksL,
            if_pos (show "https:@@".data.isPrefixOf ('h' :: ("ttps:@@".data ++ disguiseLinksL t)) = true
              from isPrefixOf_append_self "https:@@".data (disguiseLinksL t)),
            show (7 : Nat) = "ttps:@@".data.length from rfl, List.drop_left]
        have hlen : (c :: cs).length = 8 + t.length := by
          rw [hcs]
          simp only [List.length_cons, List.length_append,
            show "ttps://".data.length = 7 from rfl]
          omega
        have hrec : undisguiseLinksL (disguiseLinksL t) = t := by
          apply ih t (by omega)
          · exact containsSeq_append_right (u := "https://".data) (by rw [ht]; exact h1)
          · exact containsSeq_append_right (u := "https://".data) (by rw [ht]; exact h2)
        rw [hd, hu, hrec, ht]
      · by_cases hs2 : "http://".data.isPrefixOf (c :: cs) = true
        · obtain ⟨t, ht⟩ := List.isPrefixOf_iff_prefix.mp hs2
          have ht' : 'h' :: ("ttp://".data ++ t) = c :: cs := ht
          have hc : c = 'h' := (List.cons.injEq .. ▸ ht').1.symm
          have hcs : cs = "ttp://".data ++ t := (List.cons.injEq .. ▸ ht').2.symm
          have hd : disguiseLinksL (c :: cs) = "http:@@".data ++ disguiseLinksL t := by
            rw [disguiseLinksL, if_neg (by simp [hs1]), if_pos hs2, hcs,
              show (6 : Nat) = "ttp://".data.length from rfl, List.drop_left]
          have hx : "http:@@".data ++ disguiseLinksL t =
              'h' :: ("ttp:@@".data ++ disguiseLinksL t) := rfl
          have hns : "https:@@".data.isPrefixOf ('h' :: ("ttp:@@".data ++ disguiseLinksL t)) = false := by
            rw [show 'h' :: ("ttp:@@".data ++ disguiseLinksL t) =
              'h' :: 't' :: 't' :: 'p' :: ':' :: '@' :: '@' :: disguiseLinksL t from rfl]
            simp [List.isPrefixOf]
          have hu : undisguiseLinksL ("http:@@".data ++ disguiseLinksL t) =
              "http://".data ++ undisguiseLinksL (disguiseLinksL t) := by
            rw [hx, undisguiseLinksL, if_neg (by simp [hns]),
              if_pos (show "http:@@".data.isPrefixOf ('h' :: ("ttp:@@".data ++ disguiseLinksL t)) = true
                from isPrefixOf_append_self "http:@@".data (disguiseLinksL t)),
              show (6 : Nat) = "ttp:@@".data.length from rfl, List.drop_left]
          have hlen : (c :: cs).length = 7 + t.length := by
            rw [hcs]
            simp only [List.length_cons, List.length_append,
              show "ttp://".data.length = 6 from rfl]
            omega
          have hrec : undisguiseLinksL (disguiseLinksL t) = t := by
            apply ih t (by omega)
            · exact containsSeq_append_right (u := "http://".data) (by rw [ht]; exact h1)
            · exact containsSeq_append_right (u := "http://".data) (by rw [ht]; exact h2)
          rw [hd, hu, hrec, ht]
        · have hd : disguiseLinksL (c :: cs) = c :: disguiseLinksL cs := by
            rw [disguiseLinksL, if_neg (by simp [hs1]), if_neg (by simp [hs2])]
          have hns : "https:@@".data.isPrefixOf (c :: disguiseLinksL cs) = false := by
            by_contra hb
            simp only [Bool.not_eq_false] at hb
            simp only [List.isPrefixOf, Bool.and_eq_true, beq_iff_eq] at hb
            have := isPrefixOf_disguise cs "ttps:@@".data (by decide) hb.2
            have hpre : "https:@@".data.isPrefixOf (c :: cs) = true := by
              rw [show "https:@@".data = 'h' :: "ttps:@@".data from rfl]
              simp only [List.isPrefixOf, Bool.and_eq_true, beq_iff_eq]
              exact ⟨hb.1, this⟩
            rw [containsSeq_of_isPrefixOf hpre] at h2
            exact absurd h2 (by simp)
          have hnp : "http:@@".data.isPrefixOf (c :: disguiseLinksL cs) = false := by
            by_contra hb
            simp only [Bool.not_eq_false] at hb
            simp only [List.isPrefixOf, Bool.and_eq_true, beq_iff_eq] at hb
            have := isPrefixOf_disguise cs "ttp:@@".data (by decide) hb.2
            have hpre : "http:@@".data.isPrefixOf (c :: cs) = true := by
              rw [show "http:@@".data = 'h' :: "ttp:@@".data from rfl]
              simp only [List.isPrefixOf, Bool.and_eq_true, beq_iff_eq]
              exact ⟨hb.1, this⟩
            rw [containsSeq_of_isPrefixOf hpre] at h1
            exact absurd h1 (by simp)
          have hu : undisguiseLinksL (c :: disguiseLinksL cs) = c :: undisguiseLinksL (disguiseLinksL cs) := by
            rw [undisguiseLinksL, if_neg (by simp [hns]), if_neg (by simp [hnp])]
          have hrec : undisguiseLinksL (disguiseLinksL cs) = cs := by
            apply ih cs _ (containsSeq_tail h1) (containsSeq_tail h2)
            simp only [List.length_cons] at hl
            omega
          rw [hd, hu, hrec]

/-- C10: for a text holding no disguised scheme already, undisguising
after disguising the http(s) links is the identity. -/
theorem claim_C10_disguise_roundtrip (s : Str)
    (h1 : containsSeq "http:@@".data s = false)
    (h2 : containsSeq "https:@@".data s = false) :
    undisguiseLinksL (disguiseLinksL s) = s :=
  undis_dis_aux s.length s le_rfl h1 h2

/-- C10 witness: the round trip applied at a concrete text holding both
kinds of links. -/
theorem claim_C10_disguise_roundtrip_witness :
    containsSeq "http:@@".data "see http://a.b and https://c.d/e".data = false ∧
    containsSeq "https:@@".data "see http://a.b and https://c.d/e".data = false ∧
    undisguiseLinksL (disguiseLinksL "see http://a.b and https://c.d/e".data) =
      "see http://a.b and https://c.d/e".data :=
  ⟨by decide, by decide,
   claim_C10_disguise_roundtrip "see http://a.b and https://c.d/e".data (by decide) (by decide)⟩

/-! Auxiliary facts for C2: ticket attachment resolution outcomes. -/

lemma resolveTicketAttachmentLink_cases (conv : DefaultConverter) (tid : Int)
    (an link : Str) :
    resolveTicketAttachmentLink conv tid an link = link ∨
      ∃ url, resolveTicketAttachmentLink conv tid an link = markLink url := by
  simp only [resolveTicketAttachmentLink]
  repeat' split
  all_goals first
  | exact Or.inl rfl
  | exact Or.inr ⟨_, rfl⟩

lemma resolveTicketAttachmentLink_issueMiss (conv : DefaultConverter) (tid : Int)
    (an link : Str) (h : conv.giteaAccessor.getIssueID tid = some giteaNullID) :
    resolveTicketAttachmentLink conv tid an link = link := by
  simp only [resolveTicketAttachmentLink, h]
  simp

lemma resolveTicketAttachmentLink_uuidMiss (conv : DefaultConverter) (tid : Int)
    (an link : Str) (h : ∀ i nm, conv.giteaAccessor.getIssueAttachmentUUID i nm = some []) :
    resolveTicketAttachmentLink conv tid an link = link := by
  simp only [resolveTicketAttachmentLink, h]
  repeat' split
  all_goals simp_all

/-- C2: every failure of link resolution leaves the occurrence equal to
its original literal text.  The first two conjuncts say the resolvers
only ever return the original literal or a marked URL (so an occurrence
is never half-converted); the remaining conjuncts cover each failure
cause of the claim: a non-numeric comment number, a comment reference
with no ticket context, issue/milestone/comment/attachment lookup
misses, and an attachment with no applicable context.  All are
per-occurrence: the resolvers are total, so the surrounding document
conversion continues and the public call cannot fail. -/
theorem claim_C2_resolution_failure_is_literal (conv : DefaultConverter) (ticketID : Int)
    (wikiPage link : Str) :
    (resolveTicketCommentLink conv ticketID link = link ∨
      ∃ url, resolveTicketCommentLink conv ticketID link = markLink url) ∧
    (resolveAttachmentLink conv ticketID wikiPage link = link ∨
      ∃ url, resolveAttachmentLink conv ticketID wikiPage link = markLink url) ∧
    (parseInt64 (reReplaceAllG1 ticketCommentMatchAt link) = none →
      resolveTicketCommentLink conv ticketID link = link) ∧
    (reReplaceAllG2 ticketCommentMatchAt link = [] → ticketID = tracNullID →
      resolveTicketCommentLink conv ticketID link = link) ∧
    ((∀ t, conv.giteaAccessor.getIssueID t = some giteaNullID) →
      resolveTicketCommentLink conv ticketID link = link) ∧
    ((∀ t n, conv.tracAccessor.getTicketCommentTime t n = some 0) →
      resolveTicketCommentLink conv ticketID link = link) ∧
    ((∀ i ts, conv.giteaAccessor.getIssueCommentIDsByTime i ts = some []) →
      resolveTicketCommentLink conv ticketID link = link) ∧
    ((∀ nm, conv.giteaAccessor.getMilestoneID nm = some giteaNullID) →
      resolveMilestoneLink conv link = link) ∧
    (reReplaceAllG2 attachmentMatchAt link = [] → reReplaceAllG3 attachmentMatchAt link = [] →
      ticketID = tracNullID → wikiPage = [] →
      resolveAttachmentLink conv ticketID wikiPage link = link) ∧
    (reReplaceAllG2 attachmentMatchAt link = [] → (ticketID ≠ tracNullID ∨ wikiPage = []) →
      (∀ t, conv.giteaAccessor.getIssueID t = some giteaNullID) →
      resolveAttachmentLink conv ticketID wikiPage link = link) ∧
    (reReplaceAllG2 attachmentMatchAt link = [] → (ticketID ≠ tracNullID ∨ wikiPage = []) →
      (∀ i nm, conv.giteaAccessor.getIssueAttachmentUUID i nm = some []) →
      resolveAttachmentLink conv ticketID wikiPage link = link) := by
  refine ⟨?_, ?_, ?_, ?_, ?_, ?_, ?_, ?_, ?_, ?_, ?_⟩
  · simp only [resolveTicketCommentLink]
    repeat' split
    all_goals first
    | exact Or.inl rfl
    | exact Or.inr ⟨_, rfl⟩
  · simp only [resolveAttachmentLink]
    repeat' split
    all_goals first
    | exact Or.inl rfl
    | exact Or.inr ⟨_, rfl⟩
    | exact resolveTicketAttachmentLink_cases ..
    | (simp only [resolveWikiAttachmentLink]; exact Or.inr ⟨_, rfl⟩)
  · intro h
    simp only [resolveTicketCommentLink, h]
  · intro hg2 htid
    simp only [resolveTicketCommentLink, hg2, htid]
    repeat' split
    all_goals simp_all
  · intro hIss
    simp only [resolveTicketCommentLink, hIss]
    repeat' split
    all_goals simp_all
  · intro hTime
    simp only [resolveTicketCommentLink, hTime]
    repeat' split
    all_goals simp_all
  · intro hIDs
    simp only [resolveTicketCommentLink, hIDs]
    repeat' split
    all_goals simp_all
  · intro hMil
    simp only [resolveMilestoneLink, hMil]
    simp
  · intro hg2 hg3 htid hw
    simp only [resolveAttachmentLink, hg2, hg3, htid, hw]
    simp
  · intro hg2 hctx hIss
    simp only [resolveAttachmentLink, hg2]
    repeat' split
    all_goals first
    | rfl
    | exact resolveTicketAttachmentLink_issueMiss _ _ _ _ (hIss _)
    | simp_all
    all_goals rcases hctx with hctx | hctx
    all_goals simp_all
    all_goals exact resolveTicketAttachmentLink_issueMiss _ _ _ _ (hIss _)
  · intro hg2 hctx hUuid
    simp only [resolveAttachmentLink, hg2]
    repeat' split
    all_goals first
    | rfl
    | exact resolveTicketAttachmentLink_uuidMiss _ _ _ _ hUuid
    | simp_all
    all_goals rcases hctx with hctx | hctx
    all_goals simp_all
    all_goals exact resolveTicketAttachmentLink_uuidMiss _ _ _ _ hUuid

/-- C2 witness: against the all-failing collaborator fixture, a comment
reference, a milestone reference and a context-free attachment reference
all stay literal. -/
theorem claim_C2_resolution_failure_is_literal_witness :
    resolveTicketCommentLink convFixture tracNullID "comment:3".data = "comment:3".data ∧
    resolveMilestoneLink convNullFixture "milestone:m1".data = "milestone:m1".data ∧
    resolveAttachmentLink convFixture tracNullID [] "attachment:foo.txt".data =
      "attachment:foo.txt".data := by
  refine ⟨?_, ?_, ?_⟩
  · exact (claim_C2_resolution_failure_is_literal convFixture tracNullID [] "comment:3".data).2.2.2.1
      (by decide) rfl
  · exact (claim_C2_resolution_failure_is_literal convNullFixture tracNullID []
      "milestone:m1".data).2.2.2.2.2.2.2.1 (fun nm => rfl)
  · exact (claim_C2_resolution_failure_is_literal convFixture tracNullID []
      "attachment:foo.txt".data).2.2.2.2.2.2.2.2.1 (by decide) (by decide) rfl rfl

/-- C8 witness: the termination facts applied at concrete inputs. -/
theorem claim_C8_terminates_witness :
    "ab\x7d\x7d\x7dcd".data.length = 7 ∧ "cd".data.length < 7 ∧
    "cd".data.length < "ab\x7d\x7d\x7dcd".data.length ∧
    parseCodeBlocksL "no boundary".data [] = ("no boundary".data, false) := by
  refine ⟨rfl, by decide, ?_, ?_⟩
  · exact claim_C8_terminates.1 "ab\x7d\x7d\x7dcd".data "ab".data false "cd".data rfl
  · exact claim_C8_terminates.2.2 "no boundary".data [] rfl

lemma reReplaceAll_none {m : Str → Option ReAt} {fn : ReMatch → Str} {cs : Str}
    (h : reFind m cs = none) : reReplaceAll m fn cs = cs := by
  rw [reReplaceAll, h]

lemma phase2_X1 (conv : DefaultConverter) (ticketID : Int) (wikiPage : Str) :
    convertUnbrackettedTracLinks conv ticketID wikiPage ("[link text]WikiPage".data ++ [zws]) =
      ("[link text".data ++
        (']' :: markLink (conv.giteaAccessor.translateWikiPageName "WikiPage".data))) ++ [zws] := by
  simp only [convertUnbrackettedTracLinks]
  rw [reReplaceAll_none (show reFind httpMatchAt ("[link text]WikiPage".data ++ [zws]) = none from rfl)]
  rw [reReplaceAll_none (show reFind htdocsMatchAt ("[link text]WikiPage".data ++ [zws]) = none from rfl)]
  rw [reReplaceAll_none (show reFind ticketCommentMatchAt ("[link text]WikiPage".data ++ [zws]) = none from rfl)]
  rw [reReplaceAll_none (show reFind milestoneMatchAt ("[link text]WikiPage".data ++ [zws]) = none from rfl)]
  rw [reReplaceAll_none (show reFind attachmentMatchAt ("[link text]WikiPage".data ++ [zws]) = none from rfl)]
  rw [reReplaceAll_none (show reFind changesetMatchAt ("[link text]WikiPage".data ++ [zws]) = none from rfl)]
  rw [reReplaceAll_none (show reFind sourceMatchAt ("[link text]WikiPage".data ++ [zws]) = none from rfl)]
  rw [reReplaceAll_none (show reFind ticketMatchAt ("[link text]WikiPage".data ++ [zws]) = none from rfl)]
  rw [reReplaceAll_none (show reFind wikiMatchAt ("[link text]WikiPage".data ++ [zws]) = none from rfl)]
  rfl

lemma takeWhile_append_all {p : Char → Bool} {u : Str} (h : ∀ c ∈ u, p c = true) (v : Str) :
    (u ++ v).takeWhile p = u ++ v.takeWhile p := by
  induction u with
  | nil => simp
  | cons c cs ih =>
    simp only [List.cons_append, List.takeWhile_cons, h c (List.mem_cons_self c cs)]
    simp [ih (fun x hx => h x (List.mem_cons_of_mem c hx))]

lemma markedMatchAt_span (u v : Str) (hAt : ∀ c ∈ u, c ≠ '@') (hne : u ≠ []) :
    markedMatchAt ('(' :: '@' :: '@' :: (u ++ '@' :: '@' :: ')' :: v)) =
      some { matched := "(@@".data ++ u ++ "@@)".data, g1 := u, after := v } := by
  have htake : (u ++ '@' :: '@' :: ')' :: v).takeWhile (fun x => x ≠ '@') = u := by
    rw [takeWhile_append_all (fun c hc => by simp [hAt c hc])]
    simp
  have hdrop : (u ++ '@' :: '@' :: ')' :: v).drop u.length = '@' :: '@' :: ')' :: v :=
    List.drop_left u _
  unfold markedMatchAt
  rw [show ("(@@".data.isPrefixOf ('(' :: '@' :: '@' :: (u ++ '@' :: '@' :: ')' :: v))) = true
    from isPrefixOf_append_self "(@@".data _]
  simp only [if_true]
  rw [show ('(' :: '@' :: '@' :: (u ++ '@' :: '@' :: ')' :: v)).drop 3 = u ++ '@' :: '@' :: ')' :: v from rfl]
  rw [htake, hdrop]
  simp only [List.isEmpty_eq_true, hne, if_false]

lemma noTextMatchAt_u_none (c : Char) (u : Str) (hAt : ∀ x ∈ u, x ≠ '@') :
    noTextMarkedMatchAt (c :: (u ++ '@' :: '@' :: ')' :: [zws])) = none := by
  simp only [noTextMarkedMatchAt]
  match u, hAt with
  | [], _ =>
    rw [List.nil_append]
    split_ifs <;> rfl
  | [d], _ =>
    rw [List.cons_append, List.nil_append]
    split_ifs <;> rfl
  | d :: e :: u2, hAt =>
    have he : e ≠ '@' := hAt e (by simp)
    have hpre : ("(@@".data.isPrefixOf (d :: e :: (u2 ++ '@' :: '@' :: ')' :: [zws]))) = false := by
      have h1 : ('@' == e) = false := beq_eq_false_iff_ne.mpr (Ne.symm he)
      simp [List.isPrefixOf, h1]
    rw [List.cons_append, List.cons_append, hpre]
    simp

lemma reFind_cons_none {m : Str → Option ReAt} {c : Char} {cs : Str}
    (h : m (c :: cs) = none) (h2 : reFind m cs = none) : reFind m (c :: cs) = none := by
  rw [reFind, h, h2]

lemma reFind_cons_some' {m : Str → Option ReAt} {c : Char} {cs : Str} {r : ReAt}
    (h : m (c :: cs) = some r) :
    reFind m (c :: cs) = some ⟨[], r.matched, r.g1, r.g2, r.g3, r.after⟩ := by
  rw [reFind, h]

lemma reFind_cons_shift {m : Str → Option ReAt} {c : Char} {cs : Str} {b mt g1 g2 g3 a : Str}
    (h : m (c :: cs) = none) (h2 : reFind m cs = some ⟨b, mt, g1, g2, g3, a⟩) :
    reFind m (c :: cs) = some ⟨c :: b, mt, g1, g2, g3, a⟩ := by
  rw [reFind, h, h2]

lemma noTextFind_span_none (u : Str) (hAt : ∀ c ∈ u, c ≠ '@') :
    reFind noTextMarkedMatchAt (u ++ '@' :: '@' :: ')' :: [zws]) = none := by
  induction u with
  | nil => rfl
  | cons c cs ih =>
    rw [List.cons_append]
    exact reFind_cons_none
      (noTextMatchAt_u_none c cs (fun x hx => hAt x (List.mem_cons_of_mem c hx)))
      (ih (fun x hx => hAt x (List.mem_cons_of_mem c hx)))

lemma noTextFind_P_none (u : Str) (hAt : ∀ c ∈ u, c ≠ '@') :
    reFind noTextMarkedMatchAt ("[link text](@@".data ++ (u ++ '@' :: '@' :: ')' :: [zws])) = none := by
  show reFind noTextMarkedMatchAt
    ('[' :: 'l' :: 'i' :: 'n' :: 'k' :: ' ' :: 't' :: 'e' :: 'x' :: 't' :: ']' :: '(' :: '@' :: '@' ::
      (u ++ '@' :: '@' :: ')' :: [zws])) = none
  iterate 13 refine reFind_cons_none (by rfl) ?_
  exact reFind_cons_none (noTextMatchAt_u_none '@' u hAt) (noTextFind_span_none u hAt)

lemma markedFind_P (u : Str) (hAt : ∀ c ∈ u, c ≠ '@') (hne : u ≠ []) :
    reFind markedMatchAt ("[link text](@@".data ++ (u ++ '@' :: '@' :: ')' :: [zws])) =
      some ⟨"[link text]".data, "(@@".data ++ u ++ "@@)".data, u, [], [], [zws]⟩ := by
  show reFind markedMatchAt
    ('[' :: 'l' :: 'i' :: 'n' :: 'k' :: ' ' :: 't' :: 'e' :: 'x' :: 't' :: ']' :: '(' :: '@' :: '@' ::
      (u ++ '@' :: '@' :: ')' :: [zws])) =
      some ⟨'[' :: 'l' :: 'i' :: 'n' :: 'k' :: ' ' :: 't' :: 'e' :: 'x' :: 't' :: ']' :: [],
        "(@@".data ++ u ++ "@@)".data, u, [], [], [zws]⟩
  iterate 11 refine reFind_cons_shift (by rfl) ?_
  exact reFind_cons_some' (markedMatchAt_span u [zws] hAt hne)


lemma reReplaceAll_step {m : Str → Option ReAt} {fn : ReMatch → Str} {cs : Str} {r : ReMatch}
    (h : reFind m cs = some r) (hlt : r.after.length < cs.length) :
    reReplaceAll m fn cs = r.before ++ fn r ++ reReplaceAll m fn r.after := by
  rw [reReplaceAll, h]
  exact dif_pos hlt

lemma markedG1_extract (u : Str) (hAt : ∀ c ∈ u, c ≠ '@') (hne : u ≠ []) :
    reReplaceAllG1 markedMatchAt ("(@@".data ++ u ++ "@@)".data) = u := by
  have hm : markedMatchAt ('(' :: '@' :: '@' :: (u ++ '@' :: '@' :: ')' :: [])) =
      some { matched := "(@@".data ++ u ++ "@@)".data, g1 := u, after := [] } :=
    markedMatchAt_span u [] hAt hne
  have hf : reFind markedMatchAt ("(@@".data ++ u ++ "@@)".data) =
      some ⟨[], "(@@".data ++ u ++ "@@)".data, u, [], [], []⟩ := by
    show reFind markedMatchAt ('(' :: '@' :: '@' :: (u ++ '@' :: '@' :: ')' :: [])) = _
    exact reFind_cons_some' hm
  rw [reReplaceAllG1]
  rw [reReplaceAll_step hf (by
    show ([] : Str).length < ("(@@".data ++ u ++ "@@)".data).length
    simp [List.length_append])]
  rw [show reReplaceAll markedMatchAt (fun m => m.g1) ([] : Str) = [] from rfl]
  simp

lemma replaceAllSeq_cons_ne {c : Char} (hc : c ≠ zws) (cs : Str) :
    replaceAllSeq zws [] [] (c :: cs) = c :: replaceAllSeq zws [] [] cs := by
  have hp : ([zws].isPrefixOf (c :: cs)) = false := by
    have h1 : (zws == c) = false := beq_eq_false_iff_ne.mpr (Ne.symm hc)
    simp [List.isPrefixOf, h1]
  simp only [replaceAllSeq]
  rw [hp]
  simp

lemma replaceAllSeq_zws_skip (w : Str) (hz : ∀ c ∈ w, c ≠ zws) (v : Str) :
    replaceAllSeq zws [] [] (w ++ v) = w ++ replaceAllSeq zws [] [] v := by
  induction w with
  | nil => rfl
  | cons c cs ih =>
    rw [List.cons_append, replaceAllSeq_cons_ne (hz c (List.mem_cons_self c cs))]
    rw [ih (fun x hx => hz x (List.mem_cons_of_mem c hx))]
    rfl

lemma unmarkLinks_span (conv : DefaultConverter) (u : Str)
    (hAt : ∀ c ∈ u, c ≠ '@') (hz : ∀ c ∈ u, c ≠ zws) (hne : u ≠ []) :
    unmarkLinks conv ("[link text](@@".data ++ (u ++ '@' :: '@' :: ')' :: [zws])) =
      "[link text](".data ++ u ++ ")".data := by
  simp only [unmarkLinks]
  rw [reReplaceAll_none (noTextFind_P_none u hAt)]
  rw [reReplaceAll_step (markedFind_P u hAt hne) (by
    show ([zws] : Str).length <
      ("[link text](@@".data ++ (u ++ '@' :: '@' :: ')' :: [zws])).length
    simp [List.length_append])]
  dsimp only
  rw [markedG1_extract u hAt hne]
  rw [reReplaceAll_none (show reFind markedMatchAt [zws] = none from rfl)]
  have hw2 : ∀ c ∈ ('[' :: 'l' :: 'i' :: 'n' :: 'k' :: ' ' :: 't' :: 'e' :: 'x' :: 't' :: ']' :: '(' :: (u ++ [')'])), c ≠ zws := by
    intro c hc
    have hc2 : c ∈ (['[', 'l', 'i', 'n', 'k', ' ', 't', 'e', 'x', 't', ']', '('] ++ (u ++ [')'])) := hc
    rcases List.mem_append.mp hc2 with h1 | h2
    · exact (by decide : ∀ x ∈ (['[', 'l', 'i', 'n', 'k', ' ', 't', 'e', 'x', 't', ']', '('] : Str), x ≠ zws) c h1
    · rcases List.mem_append.mp h2 with h3 | h4
      · exact hz c h3
      · rcases List.mem_cons.mp h4 with h5 | h6
        · subst h5
          decide
        · exact absurd h6 (List.not_mem_nil c)
  show replaceAllSeq zws [] []
      (('[' :: 'l' :: 'i' :: 'n' :: 'k' :: ' ' :: 't' :: 'e' :: 'x' :: 't' :: ']' :: '(' :: (u ++ [')'])) ++ [zws]) =
    ['[', 'l', 'i', 'n', 'k', ' ', 't', 'e', 'x', 't', ']', '('] ++ u ++ [')']
  rw [replaceAllSeq_zws_skip _ hw2 [zws]]
  rw [show replaceAllSeq zws [] [] [zws] = ([] : Str) from rfl]
  simp

set_option maxHeartbeats 2000000 in
lemma phase1_C5 (conv : DefaultConverter) (wikiPage : Str) :
    convertBrackettedTracLinks conv wikiPage ("[[WikiPage|link text]]".data) =
      "[link text]WikiPage".data ++ [zws] := rfl

/-- C5: on the input [[WikiPage|link text]] the full three-phase link
conversion produces [link text](T) where T is the destination naming
translation of WikiPage: phase 1 rewrites to the single-bracket deferred
form, phase 2 resolves the CamelCase page name through
translateWikiPageName and marks it, and phase 3 unmarks it into final
Markdown and strips the separator.  The hypotheses say the translated
name T is non-empty and free of the marker characters. -/
theorem claim_C5_wiki_link_pipeline (conv : DefaultConverter) (ticketID : Int)
    (wikiPage : Str) (T : Str)
    (hT : conv.giteaAccessor.translateWikiPageName "WikiPage".data = T)
    (hAt : ∀ c ∈ T, c ≠ '@') (hz : ∀ c ∈ T, c ≠ zws) (hne : T ≠ []) :
    convertLinks conv ticketID wikiPage "[[WikiPage|link text]]".data =
      "[link text](".data ++ T ++ ")".data := by
  simp only [convertLinks]
  rw [phase1_C5 conv wikiPage]
  rw [phase2_X1 conv ticketID wikiPage]
  rw [hT]
  rw [show ("[link text".data ++ (']' :: markLink T)) ++ [zws] =
      "[link text](@@".data ++ (T ++ '@' :: '@' :: ')' :: [zws]) from by
    simp [markLink, List.append_assoc]]
  exact unmarkLinks_span conv T hAt hz hne

/-- C5 witness: the pipeline theorem applied at the converter fixture,
whose naming translation prepends Transformed. -/
theorem claim_C5_wiki_link_pipeline_witness :
    convFixture.giteaAccessor.translateWikiPageName "WikiPage".data =
        "TransformedWikiPage".data ∧
    convertLinks convFixture 42 "SomePage".data "[[WikiPage|link text]]".data =
      "[link text](".data ++ "TransformedWikiPage".data ++ ")".data :=
  ⟨rfl, claim_C5_wiki_link_pipeline convFixture 42 "SomePage".data "TransformedWikiPage".data
    rfl (by decide) (by decide) (by decide)⟩

end Trac2Gitea
